import Mathlib

/-!
# Wishlist service: shallow embedding and verified properties

The development follows the three layers of the repository:

* `internal/wish/repository.go`: `PostgresRepo`, the SQL statements it sends
  and the table they act on;
* `internal/wish/service.go`: `service`, the business rules over an abstract
  `WishRepository`;
* `internal/wish/http.go`: the handlers, over an abstract `WishService`.

Stateful code is written in state-passing style: a repository method takes the
state of the store and returns its Go results together with the new state.
-/

namespace wish

/-! ## Errors -/

/-- Go `error` values that can reach this package. The first four are the
sentinels declared in `service.go`; `ErrNoRows` is `sql.ErrNoRows`; `other` is
any further error value (driver, network), identified by its message; `wrap`
is an error whose `Unwrap` returns `inner`. -/
inductive Error where
  | ErrOwnerEmailRequired
  | ErrTitleRequired
  | ErrWishAlreadyBought
  | ErrWishNotFound
  | ErrNoRows
  | other (msg : String)
  | wrap (msg : String) (inner : Error)
deriving DecidableEq, Repr

open Error

/-- Go `errors.Is(err, target)`: `err` or an error in its `Unwrap` chain is
`target`. -/
def errorsIs : Error → Error → Bool
  | wrap msg inner, target => decide (wrap msg inner = target) || errorsIs inner target
  | err, target => decide (err = target)

set_option linter.dupNamespace false in
/-- Go `err.Error()`: the message of an error value. -/
def Error.Error : Error → String
  | ErrOwnerEmailRequired => "email not provided"
  | ErrTitleRequired => "title not provided"
  | ErrWishAlreadyBought => "wish already bought"
  | ErrWishNotFound => "wish not found"
  | ErrNoRows => "sql: no rows in result set"
  | other msg => msg
  | wrap msg _ => msg

/-! ## Data model (`service.go`) -/

/-- Go `time.Time`, as a point on an integer time line. -/
abbrev Time := Int

/-- Go `type Wish struct`; `BoughtAt *time.Time` is `none` for `nil`. -/
structure Wish where
  ID : Int
  OwnerEmail : String
  Title : String
  Description : String
  IsBought : Bool
  BoughtAt : Option Time
  CreatedAt : Time
deriving DecidableEq, Repr

/-- Go `type Stats struct`. -/
structure Stats where
  Total : Int
  Bought : Int
  Pending : Int
deriving DecidableEq, Repr

/-! ## The store -/

/-- Modelled from the spec: the `wishes` table, whose schema (DDL) is not part
of the sources. Following the data model of the spec, `id` is assigned by the
store on insertion (here from the sequence `nextID`), `is_bought` defaults to
false and `bought_at` to NULL. -/
structure Table where
  rows : List Wish
  nextID : Int
deriving DecidableEq, Repr

/-- The statement `INSERT INTO wishes (owner_email, title, description, created_at)
VALUES ($1, $2, $3, $4) RETURNING id`. -/
def Table.insertReturningID (t : Table) (ownerEmail title description : String)
    (createdAt : Time) : Int × Table :=
  (t.nextID,
   { rows := t.rows ++ [{ ID := t.nextID, OwnerEmail := ownerEmail, Title := title,
                          Description := description, IsBought := false, BoughtAt := none,
                          CreatedAt := createdAt }],
     nextID := t.nextID + 1 })

/-- The statement `SELECT ... FROM wishes WHERE id = $1`, read through `QueryRow`: the first
matching row, if any. -/
def Table.selectByID (t : Table) (id : Int) : Option Wish :=
  t.rows.find? (fun w => decide (w.ID = id))

/-- The statement `SELECT ... FROM wishes WHERE owner_email = $1 [AND is_bought = $2]
ORDER BY created_at DESC`. Rows with equal `created_at` keep their table
order (SQL leaves their order open). -/
def Table.selectByOwner (t : Table) (ownerEmail : String) (bought : Option Bool) : List Wish :=
  let matching := t.rows.filter (fun w =>
    decide (w.OwnerEmail = ownerEmail) &&
      (match bought with
       | none => true
       | some b => decide (w.IsBought = b)))
  matching.mergeSort (fun a b => decide (b.CreatedAt ≤ a.CreatedAt))

/-- The statement `UPDATE wishes set title = $1, description = $2, is_bought = $3,
bought_at = $4 WHERE id = $5`: the number of rows affected and the new table. -/
def Table.updateByID (t : Table) (title description : String) (isBought : Bool)
    (boughtAt : Option Time) (id : Int) : Nat × Table :=
  ((t.rows.filter (fun w => decide (w.ID = id))).length,
   { t with rows := t.rows.map (fun w =>
       if w.ID = id then
         { w with Title := title, Description := description, IsBought := isBought,
                  BoughtAt := boughtAt }
       else w) })

/-- The statement `DELETE FROM wishes WHERE id = $1`: the number of rows affected and the new
table. -/
def Table.deleteByID (t : Table) (id : Int) : Nat × Table :=
  ((t.rows.filter (fun w => decide (w.ID = id))).length,
   { t with rows := t.rows.filter (fun w => !decide (w.ID = id)) })

/-- The statement `SELECT COUNT(*) AS total, COUNT(*) FILTER (WHERE is_bought = true) AS bought
FROM wishes WHERE owner_email = $1`: always exactly one row. -/
def Table.countByOwner (t : Table) (ownerEmail : String) : Int × Int :=
  (((t.rows.filter (fun w => decide (w.OwnerEmail = ownerEmail))).length : Nat),
   ((t.rows.filter (fun w => decide (w.OwnerEmail = ownerEmail) && w.IsBought)).length : Nat))

/-- Go `*sql.DB`: the table behind the connection, and what the driver will
report for the coming fallible driver calls (`QueryRowContext(..).Scan`,
`QueryContext`, `rows.Next`, `rows.Scan`, `ExecContext`, `RowsAffected`), one
entry per call: `none` when the call goes through, `some err` when it fails
with `err`. An exhausted list means no further failure. -/
structure SqlDB where
  wishes : Table
  driver : List (Option Error)
deriving DecidableEq, Repr

/-- One fallible driver call: what the driver reports for it. A statement whose
call reports an error is not applied to the table. -/
def SqlDB.call (db : SqlDB) : Option Error × SqlDB :=
  match db.driver with
  | [] => (none, db)
  | outcome :: rest => (outcome, { db with driver := rest })

/-- The next `n` driver calls go through. -/
def SqlDB.answers : Nat → List (Option Error) → Bool
  | 0, _ => true
  | _ + 1, [] => true
  | n + 1, outcome :: rest => outcome.isNone && SqlDB.answers n rest

/-! ## Repository (`repository.go`) -/

/-- Go `type WishRepository interface`, over a store state `σ`. `Create`
writes the id through `wish *Wish`, so it returns the record as it is after the
call next to its error; `Update` is taken to read its record only, as
`PostgresRepo.Update` does. `GetByID` returns `(*Wish, error)`: here
`error err` stands for a non-nil `err` (every caller tests `err` first and
drops the record) and `ok wish` for a record with a nil `err`. `List` (here
`ListRows`, the name `List` being taken) returns the Go pair
`([]*Wish, error)`, a nil slice being the empty list. -/
structure WishRepository (σ : Type) where
  Create : Wish → σ → (Wish × Option Error) × σ
  GetByID : Int → σ → Except Error Wish × σ
  ListRows : String → Option Bool → σ → (List Wish × Option Error) × σ
  Update : Wish → σ → Option Error × σ
  Delete : Int → σ → Option Error × σ
  Stats : String → σ → (Stats × Option Error) × σ

namespace PostgresRepo

/-- Go `PostgresRepo.Create`. -/
def Create (wish : Wish) (db : SqlDB) : (Wish × Option Error) × SqlDB :=
  match db.call with
  | (some err, db1) => ((wish, some err), db1)
  | (none, db1) =>
    let (id, t) := db1.wishes.insertReturningID wish.OwnerEmail wish.Title wish.Description
      wish.CreatedAt
    (({ wish with ID := id }, none), { db1 with wishes := t })

/-- Go `PostgresRepo.GetByID`. -/
def GetByID (id : Int) (db : SqlDB) : Except Error Wish × SqlDB :=
  let (fault, db1) := db.call
  let scan : Except Error Wish :=
    match fault with
    | some err => Except.error err
    | none =>
      match db1.wishes.selectByID id with
      | none => Except.error ErrNoRows
      | some wish => Except.ok wish
  match scan with
  | Except.error err =>
    if errorsIs err ErrNoRows then (Except.error ErrWishNotFound, db1)
    else (Except.error err, db1)
  | Except.ok wish => (Except.ok wish, db1)

/-- The loop `for rows.Next() { .. rows.Scan(..) .. }` of `PostgresRepo.List`
over the rows the query selected, followed by `return wishes, rows.Err()`.
`rows.Next()` is one driver call: when it fails the loop ends and `rows.Err()`
returns its error; at the end of the rows `rows.Err()` returns nil. A failing
`rows.Scan` returns `nil, err` at once. -/
def scanRows : List Wish → List Wish → SqlDB → (List Wish × Option Error) × SqlDB
  | [], wishes, db =>
    match db.call with
    | (rowsErr, db1) => ((wishes, rowsErr), db1)
  | row :: rest, wishes, db =>
    match db.call with
    | (some rowsErr, db1) => ((wishes, some rowsErr), db1)
    | (none, db1) =>
      match db1.call with
      | (some err, db2) => (([], some err), db2)
      | (none, db2) => scanRows rest (wishes ++ [row]) db2

/-- Go `PostgresRepo.List`. -/
def ListRows (ownerEmail : String) (bought : Option Bool) (db : SqlDB) :
    (List Wish × Option Error) × SqlDB :=
  match db.call with
  | (some err, db1) => (([], some err), db1)
  | (none, db1) => scanRows (db1.wishes.selectByOwner ownerEmail bought) [] db1

/-- Go `PostgresRepo.Update`. -/
def Update (wish : Wish) (db : SqlDB) : Option Error × SqlDB :=
  match db.call with
  | (some err, db1) => (some err, db1)
  | (none, db1) =>
    let (rowsAffected, t) := db1.wishes.updateByID wish.Title wish.Description wish.IsBought
      wish.BoughtAt wish.ID
    match SqlDB.call { db1 with wishes := t } with
    | (some err, db2) => (some err, db2)
    | (none, db2) =>
      if rowsAffected = 0 then (some ErrWishNotFound, db2)
      else (none, db2)

/-- Go `PostgresRepo.Delete`. -/
def Delete (id : Int) (db : SqlDB) : Option Error × SqlDB :=
  match db.call with
  | (some err, db1) => (some err, db1)
  | (none, db1) =>
    let (rowsAffected, t) := db1.wishes.deleteByID id
    match SqlDB.call { db1 with wishes := t } with
    | (some err, db2) => (some err, db2)
    | (none, db2) =>
      if rowsAffected = 0 then (some ErrWishNotFound, db2)
      else (none, db2)

/-- Go `PostgresRepo.Stats`. -/
def Stats (ownerEmail : String) (db : SqlDB) : (wish.Stats × Option Error) × SqlDB :=
  match db.call with
  | (some err, db1) => (({ Total := 0, Bought := 0, Pending := 0 }, some err), db1)
  | (none, db1) =>
    let (total, bought) := db1.wishes.countByOwner ownerEmail
    (({ Total := total, Bought := bought, Pending := total - bought }, none), db1)

end PostgresRepo

/-- Go `NewPostgresRepo`: the repository whose store is the database. -/
def NewPostgresRepo : WishRepository SqlDB where
  Create := PostgresRepo.Create
  GetByID := PostgresRepo.GetByID
  ListRows := PostgresRepo.ListRows
  Update := PostgresRepo.Update
  Delete := PostgresRepo.Delete
  Stats := PostgresRepo.Stats

/-! ## Service (`service.go`) -/

/-- Go `type service struct`. -/
structure service (σ : Type) where
  repo : WishRepository σ

namespace service

variable {σ : Type}

/-- Go `service.CreateWish`; `now` is what `time.Now()` returns. -/
def CreateWish (s : service σ) (now : Time) (ownerEmail title description : String) (st : σ) :
    (Option Wish × Option Error) × σ :=
  if ownerEmail = "" then ((none, some ErrOwnerEmailRequired), st)
  else if title = "" then ((none, some ErrTitleRequired), st)
  else
    let wish : Wish :=
      { ID := 0, OwnerEmail := ownerEmail, Title := title, Description := description,
        IsBought := false, BoughtAt := none, CreatedAt := now }
    match s.repo.Create wish st with
    | ((_, some err), st1) => ((none, some err), st1)
    | ((wish1, none), st1) => ((some wish1, none), st1)

/-- Go `service.GetWish`. -/
def GetWish (s : service σ) (id : Int) (st : σ) : (Option Wish × Option Error) × σ :=
  match s.repo.GetByID id st with
  | (Except.error err, st1) => ((none, some err), st1)
  | (Except.ok wish, st1) => ((some wish, none), st1)

/-- Go `service.ListWishes`. -/
def ListWishes (s : service σ) (ownerEmail : String) (bought : Option Bool) (st : σ) :
    (List Wish × Option Error) × σ :=
  s.repo.ListRows ownerEmail bought st

/-- Go `service.UpdateWish`. -/
def UpdateWish (s : service σ) (id : Int) (title description : String) (st : σ) :
    (Option Wish × Option Error) × σ :=
  match s.repo.GetByID id st with
  | (Except.error err, st1) => ((none, some err), st1)
  | (Except.ok wish, st1) =>
    let wish1 : Wish := { wish with Title := title, Description := description }
    match s.repo.Update wish1 st1 with
    | (err, st2) => ((some wish1, err), st2)

/-- Go `service.DeleteWish`. -/
def DeleteWish (s : service σ) (id : Int) (st : σ) : Option Error × σ :=
  s.repo.Delete id st

/-- Go `service.BuyWish`; `now` is what `time.Now()` returns. -/
def BuyWish (s : service σ) (now : Time) (id : Int) (st : σ) : Option Error × σ :=
  match s.repo.GetByID id st with
  | (Except.error err, st1) => (some err, st1)
  | (Except.ok wish, st1) =>
    if wish.IsBought then (some ErrWishAlreadyBought, st1)
    else
      let wish1 : Wish := { wish with IsBought := true, BoughtAt := some now }
      s.repo.Update wish1 st1

/-- Go `service.GetStats`. -/
def GetStats (s : service σ) (ownerEmail : String) (st : σ) : (Stats × Option Error) × σ :=
  s.repo.Stats ownerEmail st

end service

/-- Go `type WishService interface`, over a store state `σ`; `(*Wish, error)`
and `([]*Wish, error)` are Go pairs, `none` being `nil`. -/
structure WishService (σ : Type) where
  CreateWish : String → String → String → σ → (Option Wish × Option Error) × σ
  GetWish : Int → σ → (Option Wish × Option Error) × σ
  ListWishes : String → Option Bool → σ → (List Wish × Option Error) × σ
  UpdateWish : Int → String → String → σ → (Option Wish × Option Error) × σ
  DeleteWish : Int → σ → Option Error × σ
  BuyWish : Int → σ → Option Error × σ
  GetStats : String → σ → (Stats × Option Error) × σ

/-- Go `NewService`: the service over `repo`, as a `WishService`; `now` is what
`time.Now()` returns while the request is served. -/
def NewService {σ : Type} (now : Time) (repo : WishRepository σ) : WishService σ where
  CreateWish := service.CreateWish { repo := repo } now
  GetWish := service.GetWish { repo := repo }
  ListWishes := service.ListWishes { repo := repo }
  UpdateWish := service.UpdateWish { repo := repo }
  DeleteWish := service.DeleteWish { repo := repo }
  BuyWish := service.BuyWish { repo := repo } now
  GetStats := service.GetStats { repo := repo }

/-! ## A repository that records the calls made on it -/

/-- One call of a `WishRepository` method, with its arguments. -/
inductive Call where
  | Create (wish : Wish)
  | GetByID (id : Int)
  | ListRows (ownerEmail : String) (bought : Option Bool)
  | Update (wish : Wish)
  | Delete (id : Int)
  | Stats (ownerEmail : String)
deriving DecidableEq, Repr

/-- The repository `repo`, with every call on it appended to a log kept next
to the store state. -/
def traced {σ : Type} (repo : WishRepository σ) : WishRepository (σ × List Call) where
  Create := fun wish st =>
    ((repo.Create wish st.1).1, ((repo.Create wish st.1).2, st.2 ++ [Call.Create wish]))
  GetByID := fun id st =>
    ((repo.GetByID id st.1).1, ((repo.GetByID id st.1).2, st.2 ++ [Call.GetByID id]))
  ListRows := fun ownerEmail bought st =>
    ((repo.ListRows ownerEmail bought st.1).1,
     ((repo.ListRows ownerEmail bought st.1).2, st.2 ++ [Call.ListRows ownerEmail bought]))
  Update := fun wish st =>
    ((repo.Update wish st.1).1, ((repo.Update wish st.1).2, st.2 ++ [Call.Update wish]))
  Delete := fun id st =>
    ((repo.Delete id st.1).1, ((repo.Delete id st.1).2, st.2 ++ [Call.Delete id]))
  Stats := fun ownerEmail st =>
    ((repo.Stats ownerEmail st.1).1, ((repo.Stats ownerEmail st.1).2, st.2 ++ [Call.Stats ownerEmail]))

/-! ## Transport (`http.go`) -/

/-- Go `type createWishRequest struct`. -/
structure createWishRequest where
  OwnerEmail : String
  Title : String
  Description : String
deriving DecidableEq, Repr

/-- Go `type updateWishRequest struct`. -/
structure updateWishRequest where
  Title : String
  Description : String
deriving DecidableEq, Repr

/-- Go `type WishResponse struct`. -/
structure WishResponse where
  ID : Int
  OwnerEmail : String
  Title : String
  Description : String
  IsBought : Bool
  BoughtAt : Option Time
  CreatedAt : Time
deriving DecidableEq, Repr

/-- Go `toResponse`. -/
def toResponse (w : Wish) : WishResponse :=
  { ID := w.ID, OwnerEmail := w.OwnerEmail, Title := w.Title, Description := w.Description,
    IsBought := w.IsBought, BoughtAt := w.BoughtAt, CreatedAt := w.CreatedAt }

/-- What a handler reads from `*http.Request`, after the standard library has
decoded it: `pathID` is the result of `strconv.Atoi(r.PathValue("id"))`,
`createBody` and `updateBody` the results of decoding the JSON body into the
two request types (`none` when the call returns an error), `ownerEmail` and
`bought` the query parameters `owner_email` and `bought` (empty when absent). -/
structure Request where
  pathID : Option Int
  createBody : Option createWishRequest
  updateBody : Option updateWishRequest
  ownerEmail : String
  bought : String
deriving DecidableEq, Repr

/-- The payload written to the `http.ResponseWriter`. -/
inductive Body where
  | error (message : String)
  | wish (r : WishResponse)
  | wishes (rs : List WishResponse)
  | stats (st : Stats)
  | empty
deriving DecidableEq, Repr

/-- The status code and payload written to the `http.ResponseWriter`. -/
structure Response where
  code : Nat
  body : Body
deriving DecidableEq, Repr

/-- Go `http.StatusOK`. -/
def StatusOK : Nat := 200
/-- Go `http.StatusCreated`. -/
def StatusCreated : Nat := 201
/-- Go `http.StatusNoContent`. -/
def StatusNoContent : Nat := 204
/-- Go `http.StatusBadRequest`. -/
def StatusBadRequest : Nat := 400
/-- Go `http.StatusNotFound`. -/
def StatusNotFound : Nat := 404
/-- Go `http.StatusInternalServerError`. -/
def StatusInternalServerError : Nat := 500

/-- Go `respondWithJSON`. -/
def respondWithJSON (code : Nat) (payload : Body) : Response :=
  { code := code, body := payload }

/-- Go `respondWithError`. -/
def respondWithError (code : Nat) (message : String) : Response :=
  { code := code, body := Body.error message }

/-- Go `strconv.ParseBool`; `none` when it returns an error. -/
def ParseBool (str : String) : Option Bool :=
  if str ∈ ["1", "t", "T", "TRUE", "true", "True"] then some true
  else if str ∈ ["0", "f", "F", "FALSE", "false", "False"] then some false
  else none

section handlers

variable {σ : Type}

/-- Go `CreateWishHandler`. The response is `none` when the handler panics
(the service returned a nil record with a nil error). -/
def CreateWishHandler (svc : WishService σ) (r : Request) (st : σ) : Option Response × σ :=
  match r.createBody with
  | none => (some (respondWithError StatusBadRequest "invalid JSON"), st)
  | some req =>
    match svc.CreateWish req.OwnerEmail req.Title req.Description st with
    | ((_, some err), st1) =>
      if errorsIs err ErrOwnerEmailRequired || errorsIs err ErrTitleRequired then
        (some (respondWithError StatusBadRequest err.Error), st1)
      else
        (some (respondWithError StatusInternalServerError "failed to create wish"), st1)
    | ((some wish, none), st1) =>
      (some (respondWithJSON StatusCreated (Body.wish (toResponse wish))), st1)
    | ((none, none), st1) => (none, st1)

/-- Go `GetWishHandler`. -/
def GetWishHandler (svc : WishService σ) (r : Request) (st : σ) : Option Response × σ :=
  match r.pathID with
  | none => (some (respondWithError StatusBadRequest "invalid wish ID"), st)
  | some id =>
    match svc.GetWish id st with
    | ((_, some err), st1) =>
      if errorsIs err ErrWishNotFound then
        (some (respondWithError StatusNotFound ErrWishNotFound.Error), st1)
      else
        (some (respondWithError StatusInternalServerError "failed to fetch wish"), st1)
    | ((some wish, none), st1) =>
      (some (respondWithJSON StatusOK (Body.wish (toResponse wish))), st1)
    | ((none, none), st1) => (none, st1)

/-- Go `ListWishHandler`. -/
def ListWishHandler (svc : WishService σ) (r : Request) (st : σ) : Option Response × σ :=
  if r.ownerEmail = "" then
    (some (respondWithError StatusBadRequest ErrOwnerEmailRequired.Error), st)
  else
    let parsed : Option (Option Bool) :=
      if r.bought ≠ "" then
        match ParseBool r.bought with
        | none => none
        | some b => some (some b)
      else some none
    match parsed with
    | none => (some (respondWithError StatusBadRequest "invalid bought parameter"), st)
    | some bought =>
      match svc.ListWishes r.ownerEmail bought st with
      | ((_, some _), st1) =>
        (some (respondWithError StatusInternalServerError "failed to list wishes"), st1)
      | ((wishes, none), st1) =>
        (some (respondWithJSON StatusOK (Body.wishes (wishes.map toResponse))), st1)

/-- Go `UpdateWishHandler`. -/
def UpdateWishHandler (svc : WishService σ) (r : Request) (st : σ) : Option Response × σ :=
  match r.pathID with
  | none => (some (respondWithError StatusBadRequest "invalid wish ID"), st)
  | some id =>
    match r.updateBody with
    | none => (some (respondWithError StatusBadRequest "invalid JSON"), st)
    | some req =>
      match svc.UpdateWish id req.Title req.Description st with
      | ((_, some err), st1) =>
        if errorsIs err ErrWishNotFound then
          (some (respondWithError StatusNotFound ErrWishNotFound.Error), st1)
        else
          (some (respondWithError StatusInternalServerError "failed to update wish"), st1)
      | ((some wish, none), st1) =>
        (some (respondWithJSON StatusOK (Body.wish (toResponse wish))), st1)
      | ((none, none), st1) => (none, st1)

/-- Go `DeleteWishHandler`. -/
def DeleteWishHandler (svc : WishService σ) (r : Request) (st : σ) : Option Response × σ :=
  match r.pathID with
  | none => (some (respondWithError StatusBadRequest "invalid wish ID"), st)
  | some id =>
    match svc.DeleteWish id st with
    | (some err, st1) =>
      if errorsIs err ErrWishNotFound then
        (some (respondWithError StatusNotFound ErrWishNotFound.Error), st1)
      else
        (some (respondWithError StatusInternalServerError "couldnt delete wish"), st1)
    | (none, st1) => (some { code := StatusNoContent, body := Body.empty }, st1)

/-- Go `BuyWishHandler`. -/
def BuyWishHandler (svc : WishService σ) (r : Request) (st : σ) : Option Response × σ :=
  match r.pathID with
  | none => (some (respondWithError StatusBadRequest "invalid wish ID"), st)
  | some id =>
    match svc.BuyWish id st with
    | (some err, st1) =>
      if errorsIs err ErrWishAlreadyBought then
        (some (respondWithError StatusBadRequest ErrWishAlreadyBought.Error), st1)
      else if errorsIs err ErrWishNotFound then
        (some (respondWithError StatusNotFound ErrWishNotFound.Error), st1)
      else
        (some (respondWithError StatusInternalServerError "failed to buy wish"), st1)
    | (none, st1) => (some { code := StatusNoContent, body := Body.empty }, st1)

/-- Go `StatsHandler`. -/
def StatsHandler (svc : WishService σ) (r : Request) (st : σ) : Option Response × σ :=
  if r.ownerEmail = "" then
    (some (respondWithError StatusBadRequest ErrOwnerEmailRequired.Error), st)
  else
    match svc.GetStats r.ownerEmail st with
    | ((_, some _), st1) =>
      (some (respondWithError StatusInternalServerError "failed to get stats"), st1)
    | ((stats, none), st1) => (some (respondWithJSON StatusOK (Body.stats stats)), st1)

end handlers

/-! ## Invariants of the data model -/

/-- The invariant of the data model: `bought_at` is present if and only if
`is_bought` is true. -/
def Wish.consistent (w : Wish) : Prop :=
  w.BoughtAt.isSome = true ↔ w.IsBought = true

instance (w : Wish) : Decidable w.consistent := by
  unfold Wish.consistent
  infer_instance

/-- Every row of the table satisfies `Wish.consistent`. -/
def Table.consistent (t : Table) : Prop :=
  ∀ w ∈ t.rows, w.consistent

instance (t : Table) : Decidable t.consistent := by
  unfold Table.consistent
  infer_instance

/-- The business invariants on the text columns: a non-empty owner email and a
non-empty title. -/
def Wish.named (w : Wish) : Prop :=
  w.OwnerEmail ≠ "" ∧ w.Title ≠ ""

instance (w : Wish) : Decidable w.named := by
  unfold Wish.named
  infer_instance

/-- Every row of the table satisfies `Wish.named`. -/
def Table.named (t : Table) : Prop :=
  ∀ w ∈ t.rows, w.named

instance (t : Table) : Decidable t.named := by
  unfold Table.named
  infer_instance

/-- The key constraint of the table: no two rows share an id, and every id in
use was handed out by the sequence. -/
def Table.keyed (t : Table) : Prop :=
  (t.rows.map Wish.ID).Nodup ∧ ∀ w ∈ t.rows, w.ID < t.nextID

instance (t : Table) : Decidable t.keyed := by
  unfold Table.keyed
  infer_instance

/-- The error at the end of the `Unwrap` chain of an error. -/
def errorRoot : Error → Error
  | wrap _ inner => errorRoot inner
  | err => err

/-- The four sentinel errors declared in `service.go`. -/
def sentinels : List Error :=
  [ErrOwnerEmailRequired, ErrTitleRequired, ErrWishAlreadyBought, ErrWishNotFound]

/-! ## Status codes per route -/

/-- The routes registered in `main.go`, one per handler. -/
inductive Endpoint where
  | create
  | get
  | list
  | update
  | delete
  | buy
  | stats
deriving DecidableEq, Repr

/-- The status table of section 4.3 of the specification, as it is written
there: the status for the error (or success, `none`) of the service call,
the same rows for every route. -/
def specStatus (ep : Endpoint) : Option Error → Nat
  | some err =>
    if errorsIs err ErrOwnerEmailRequired || errorsIs err ErrTitleRequired
        || errorsIs err ErrWishAlreadyBought then StatusBadRequest
    else if errorsIs err ErrWishNotFound then StatusNotFound
    else StatusInternalServerError
  | none =>
    match ep with
    | Endpoint.create => StatusCreated
    | Endpoint.delete => StatusNoContent
    | Endpoint.buy => StatusNoContent
    | _ => StatusOK

/-- The sentinel errors that the handler of each route tests for with
`errors.Is` (`http.go`). -/
def Endpoint.tested : Endpoint → List Error
  | Endpoint.create => [ErrOwnerEmailRequired, ErrTitleRequired]
  | Endpoint.get => [ErrWishNotFound]
  | Endpoint.list => []
  | Endpoint.update => [ErrWishNotFound]
  | Endpoint.delete => [ErrWishNotFound]
  | Endpoint.buy => [ErrWishAlreadyBought, ErrWishNotFound]
  | Endpoint.stats => []

/-- The status table restricted to what each handler tests: an error gets its
row of `specStatus` when it is one of the sentinels the handler of the route
tests for, and `500` otherwise. -/
def handlerStatus (ep : Endpoint) : Option Error → Nat
  | some err =>
    if ep.tested.any (fun target => errorsIs err target) then specStatus ep (some err)
    else StatusInternalServerError
  | none => specStatus ep none

/-- A `WishService` over a store without state whose every method returns the
error `err` (and no record). -/
def failingService (err : Error) : WishService Unit where
  CreateWish := fun _ _ _ st => ((none, some err), st)
  GetWish := fun _ st => ((none, some err), st)
  ListWishes := fun _ _ st => (([], some err), st)
  UpdateWish := fun _ _ _ st => ((none, some err), st)
  DeleteWish := fun _ st => (some err, st)
  BuyWish := fun _ st => (some err, st)
  GetStats := fun _ st => (({ Total := 0, Bought := 0, Pending := 0 }, some err), st)

/-! ## Sample data -/

/-- A wish of owner `a@x.com`, not bought. -/
def bookWish : Wish :=
  { ID := 1, OwnerEmail := "a@x.com", Title := "Book", Description := "", IsBought := false,
    BoughtAt := none, CreatedAt := 10 }

/-- A wish of owner `b@x.com`, bought at time 25. -/
def bikeWish : Wish :=
  { ID := 2, OwnerEmail := "b@x.com", Title := "Bike", Description := "red", IsBought := true,
    BoughtAt := some 25, CreatedAt := 20 }

/-- A database holding `bookWish` and `bikeWish`, whose next three driver calls
go through. -/
def sampleDB : SqlDB :=
  { wishes := { rows := [bookWish, bikeWish], nextID := 3 }, driver := [none, none, none] }

/-- The sample table behind a connection whose first driver call fails. -/
def brokenDB : SqlDB :=
  { wishes := sampleDB.wishes, driver := [some (other "connection refused")] }

/-- A request that decodes for every route: the path id `id`, the body of a
create for owner `c@x.com`, the body of an update to the title `Atlas`, and the
query `owner_email=b@x.com&bought=true`. -/
def sampleRequest (id : Int) : Request :=
  { pathID := some id,
    createBody := some { OwnerEmail := "c@x.com", Title := "Lamp", Description := "" },
    updateBody := some { Title := "Atlas", Description := "" },
    ownerEmail := "b@x.com", bought := "true" }

/-- A request for `PATCH /wishes/1` with the body of an update to the title
`Atlas`. -/
def sampleUpdateRequest : Request :=
  { pathID := some 1, createBody := none,
    updateBody := some { Title := "Atlas", Description := "" },
    ownerEmail := "", bought := "" }

/-! # Theorems -/

/-! ## Driver calls -/

theorem SqlDB.call_eq (db : SqlDB) :
    db.call = (db.driver.headD none, { db with driver := db.driver.tail }) := by
  cases db with
  | mk t d => cases d <;> rfl

theorem SqlDB.answers_succ {n : Nat} {l : List (Option Error)}
    (h : SqlDB.answers (n + 1) l = true) :
    l.headD none = none ∧ SqlDB.answers n l.tail = true := by
  cases l with
  | nil => cases n <;> simp [SqlDB.answers]
  | cons o rest =>
    simp only [SqlDB.answers, Bool.and_eq_true, Option.isNone_iff_eq_none] at h
    simpa using h

theorem SqlDB.call_of_answers {n : Nat} {db : SqlDB}
    (h : SqlDB.answers (n + 1) db.driver = true) :
    db.call = (none, { db with driver := db.driver.tail }) := by
  rw [SqlDB.call_eq, (SqlDB.answers_succ h).1]

/-! ## Statements on the table -/

theorem Table.selectByID_id {t : Table} {id : Int} {w : Wish}
    (h : t.selectByID id = some w) : w.ID = id := by
  have := List.find?_some h
  simpa using this

theorem Table.selectByID_mem {t : Table} {id : Int} {w : Wish}
    (h : t.selectByID id = some w) : w ∈ t.rows :=
  List.mem_of_find?_eq_some h

theorem Table.selectByID_eq_none {t : Table} {id : Int} :
    t.selectByID id = none ↔ ∀ w ∈ t.rows, w.ID ≠ id := by
  simp [Table.selectByID]

/-! ## Repository methods when the driver calls go through -/

theorem PostgresRepo.GetByID_of_answers {n : Nat} {db : SqlDB} (id : Int)
    (h : SqlDB.answers (n + 1) db.driver = true) :
    PostgresRepo.GetByID id db =
      ((match db.wishes.selectByID id with
        | none => Except.error ErrWishNotFound
        | some w => Except.ok w),
       { db with driver := db.driver.tail }) := by
  unfold PostgresRepo.GetByID
  rw [SqlDB.call_of_answers h]
  cases hsel : db.wishes.selectByID id <;> simp [hsel, errorsIs]

theorem PostgresRepo.Update_of_answers {n : Nat} {db : SqlDB} (wish : Wish)
    (h : SqlDB.answers (n + 2) db.driver = true) :
    PostgresRepo.Update wish db =
      ((if (db.wishes.updateByID wish.Title wish.Description wish.IsBought wish.BoughtAt
              wish.ID).1 = 0 then some ErrWishNotFound else none),
       { wishes := (db.wishes.updateByID wish.Title wish.Description wish.IsBought
            wish.BoughtAt wish.ID).2,
         driver := db.driver.tail.tail }) := by
  have h1 := SqlDB.call_of_answers h
  have h2 := (SqlDB.answers_succ h).2
  unfold PostgresRepo.Update
  rw [h1]
  simp only
  rw [@SqlDB.call_of_answers _ { wishes := _, driver := db.driver.tail } h2]
  simp only
  split <;> rfl

theorem PostgresRepo.Delete_of_answers {n : Nat} {db : SqlDB} (id : Int)
    (h : SqlDB.answers (n + 2) db.driver = true) :
    PostgresRepo.Delete id db =
      ((if (db.wishes.deleteByID id).1 = 0 then some ErrWishNotFound else none),
       { wishes := (db.wishes.deleteByID id).2, driver := db.driver.tail.tail }) := by
  have h1 := SqlDB.call_of_answers h
  have h2 := (SqlDB.answers_succ h).2
  unfold PostgresRepo.Delete
  rw [h1]
  simp only
  rw [@SqlDB.call_of_answers _ { wishes := _, driver := db.driver.tail } h2]
  simp only
  split <;> rfl

/-! ## Repository methods under any driver outcome -/

theorem PostgresRepo.GetByID_wishes (id : Int) (db : SqlDB) :
    (PostgresRepo.GetByID id db).2.wishes = db.wishes := by
  unfold PostgresRepo.GetByID
  rw [SqlDB.call_eq]
  simp only
  split <;> [split; skip] <;> rfl

theorem PostgresRepo.GetByID_ok {id : Int} {db : SqlDB} {w : Wish}
    (h : (PostgresRepo.GetByID id db).1 = Except.ok w) :
    db.wishes.selectByID id = some w := by
  unfold PostgresRepo.GetByID at h
  rw [SqlDB.call_eq] at h
  simp only at h
  cases hf : db.driver.headD none with
  | some err => simp only [hf] at h; split at h <;> simp at h
  | none =>
    simp only [hf] at h
    cases hsel : db.wishes.selectByID id with
    | none => simp [hsel, errorsIs] at h
    | some v => simpa [hsel] using h

theorem PostgresRepo.Create_wishes (wish : Wish) (db : SqlDB) :
    (PostgresRepo.Create wish db).2.wishes = db.wishes ∨
    (PostgresRepo.Create wish db).2.wishes =
      (db.wishes.insertReturningID wish.OwnerEmail wish.Title wish.Description
        wish.CreatedAt).2 := by
  unfold PostgresRepo.Create
  rw [SqlDB.call_eq]
  cases db.driver.headD none with
  | some err => left; rfl
  | none => right; rfl

theorem PostgresRepo.Update_wishes (wish : Wish) (db : SqlDB) :
    (PostgresRepo.Update wish db).2.wishes = db.wishes ∨
    (PostgresRepo.Update wish db).2.wishes =
      (db.wishes.updateByID wish.Title wish.Description wish.IsBought wish.BoughtAt
        wish.ID).2 := by
  unfold PostgresRepo.Update
  rw [SqlDB.call_eq]
  cases db.driver.headD none with
  | some err => left; rfl
  | none =>
    right
    simp only
    rw [SqlDB.call_eq]
    cases db.driver.tail.headD none with
    | some err => rfl
    | none =>
      simp only
      split <;> rfl

theorem PostgresRepo.Delete_wishes (id : Int) (db : SqlDB) :
    (PostgresRepo.Delete id db).2.wishes = db.wishes ∨
    (PostgresRepo.Delete id db).2.wishes = (db.wishes.deleteByID id).2 := by
  unfold PostgresRepo.Delete
  rw [SqlDB.call_eq]
  cases db.driver.headD none with
  | some err => left; rfl
  | none =>
    right
    simp only
    rw [SqlDB.call_eq]
    cases db.driver.tail.headD none with
    | some err => rfl
    | none =>
      simp only
      split <;> rfl

theorem SqlDB.answers_pred {n : Nat} {l : List (Option Error)}
    (h : SqlDB.answers (n + 1) l = true) : SqlDB.answers n l = true := by
  induction n generalizing l with
  | zero => rfl
  | succ k ih =>
    cases l with
    | nil => rfl
    | cons o rest =>
      simp only [SqlDB.answers, Bool.and_eq_true] at h ⊢
      exact ⟨h.1, ih h.2⟩

theorem PostgresRepo.Update_none {wish : Wish} {db : SqlDB}
    (h : (PostgresRepo.Update wish db).1 = none) :
    (PostgresRepo.Update wish db).2.wishes =
      (db.wishes.updateByID wish.Title wish.Description wish.IsBought wish.BoughtAt
        wish.ID).2 := by
  unfold PostgresRepo.Update at h ⊢
  rw [SqlDB.call_eq] at h ⊢
  generalize db.driver.headD none = f at h ⊢
  cases f with
  | some err => simp at h
  | none =>
    simp only at h ⊢
    rw [SqlDB.call_eq] at h ⊢
    simp only at h ⊢
    generalize db.driver.tail.headD none = g at h ⊢
    cases g with
    | some err => simp at h
    | none =>
      simp only
      split <;> rfl

theorem Table.selectByID_updateByID (t : Table) (title description : String) (isBought : Bool)
    (boughtAt : Option Time) (id id1 : Int) :
    (t.updateByID title description isBought boughtAt id1).2.selectByID id =
      (t.selectByID id).map (fun w =>
        if w.ID = id1 then
          { w with Title := title, Description := description, IsBought := isBought,
                   BoughtAt := boughtAt }
        else w) := by
  simp only [Table.selectByID, Table.updateByID, List.find?_map]
  congr 2
  funext w
  simp only [Function.comp]
  split <;> rfl

theorem Table.key_unique {t : Table} (hkey : (t.rows.map Wish.ID).Nodup) {v w : Wish}
    (hv : v ∈ t.rows) (hw : w ∈ t.rows) (h : v.ID = w.ID) : v = w :=
  List.inj_on_of_nodup_map hkey hv hw h

theorem Table.updateByID_affected {t : Table} {id : Int} {w : Wish}
    (hsel : t.selectByID id = some w) (title description : String) (isBought : Bool)
    (boughtAt : Option Time) :
    (t.updateByID title description isBought boughtAt id).1 ≠ 0 := by
  have hmem : w ∈ t.rows.filter (fun v => decide (v.ID = id)) := by
    rw [List.mem_filter]
    exact ⟨Table.selectByID_mem hsel, by simpa using Table.selectByID_id hsel⟩
  simp only [Table.updateByID]
  intro h0
  rw [List.length_eq_zero] at h0
  rw [h0] at hmem
  simp at hmem

theorem Table.updateByID_missing {t : Table} {id : Int} (hid : ∀ w ∈ t.rows, w.ID ≠ id)
    (title description : String) (isBought : Bool) (boughtAt : Option Time) :
    t.updateByID title description isBought boughtAt id = (0, t) := by
  have h1 : t.rows.filter (fun v => decide (v.ID = id)) = [] := by
    rw [List.filter_eq_nil_iff]
    intro a ha
    simpa using hid a ha
  have h2 : t.rows.map (fun w => if w.ID = id then
      { w with Title := title, Description := description, IsBought := isBought,
               BoughtAt := boughtAt } else w) = t.rows := by
    conv_rhs => rw [← List.map_id t.rows]
    apply List.map_congr_left
    intro a ha
    simp [hid a ha]
  simp only [Table.updateByID, h1, h2, List.length_nil]

theorem Table.deleteByID_missing {t : Table} {id : Int} (hid : ∀ w ∈ t.rows, w.ID ≠ id) :
    t.deleteByID id = (0, t) := by
  have h1 : t.rows.filter (fun v => decide (v.ID = id)) = [] := by
    rw [List.filter_eq_nil_iff]
    intro a ha
    simpa using hid a ha
  have h2 : t.rows.filter (fun w => !decide (w.ID = id)) = t.rows := by
    rw [List.filter_eq_self]
    intro a ha
    simpa using hid a ha
  simp only [Table.deleteByID, h1, h2, List.length_nil]

/-- The rows after `UPDATE ... WHERE id = $5` when `id` is a key of the table
and `w` is the row stored under it: every row keeps its position, the rows
with another id are untouched, and the row `w` gets the four written columns. -/
theorem Table.updateByID_rows {t : Table} (hkey : (t.rows.map Wish.ID).Nodup) {id : Int}
    {w : Wish} (hsel : t.selectByID id = some w) (title description : String)
    (isBought : Bool) (boughtAt : Option Time) (i : Nat) (v : Wish)
    (hv : t.rows[i]? = some v) :
    (t.updateByID title description isBought boughtAt id).2.rows[i]? =
      some (if v.ID = id then
              { w with Title := title, Description := description, IsBought := isBought,
                       BoughtAt := boughtAt }
            else v) := by
  simp only [Table.updateByID, List.getElem?_map, hv, Option.map_some']
  by_cases h : v.ID = id
  · have hvw : v = w :=
      Table.key_unique hkey (List.getElem?_mem hv) (Table.selectByID_mem hsel)
        (h.trans (Table.selectByID_id hsel).symm)
    simp [h, hvw]
  · simp [h]

/-! ## Row predicates kept by the statements -/

theorem Table.forall_insert {P : Wish → Prop} {t : Table} (h : ∀ w ∈ t.rows, P w)
    (ownerEmail title description : String) (createdAt : Time)
    (hnew : ∀ id, P { ID := id, OwnerEmail := ownerEmail, Title := title,
                      Description := description, IsBought := false, BoughtAt := none,
                      CreatedAt := createdAt }) :
    ∀ w ∈ (t.insertReturningID ownerEmail title description createdAt).2.rows, P w := by
  intro w hw
  simp only [Table.insertReturningID, List.mem_append, List.mem_singleton] at hw
  rcases hw with hw | hw
  · exact h w hw
  · rw [hw]
    exact hnew _

theorem Table.forall_updateByID {P : Wish → Prop} {t : Table} (h : ∀ w ∈ t.rows, P w)
    (title description : String) (isBought : Bool) (boughtAt : Option Time) (id : Int)
    (hset : ∀ w, P w → P { w with Title := title, Description := description,
                                  IsBought := isBought, BoughtAt := boughtAt }) :
    ∀ w ∈ (t.updateByID title description isBought boughtAt id).2.rows, P w := by
  intro w hw
  simp only [Table.updateByID, List.mem_map] at hw
  obtain ⟨v, hv, rfl⟩ := hw
  split
  · exact hset v (h v hv)
  · exact h v hv

theorem Table.forall_deleteByID {P : Wish → Prop} {t : Table} (h : ∀ w ∈ t.rows, P w)
    (id : Int) : ∀ w ∈ (t.deleteByID id).2.rows, P w := by
  intro w hw
  simp only [Table.deleteByID] at hw
  exact h w (List.mem_of_mem_filter hw)

theorem PostgresRepo.Create_record (wish : Wish) (db : SqlDB) :
    ∃ id, (PostgresRepo.Create wish db).1.1 = { wish with ID := id } := by
  unfold PostgresRepo.Create
  rw [SqlDB.call_eq]
  cases db.driver.headD none with
  | some err => exact ⟨wish.ID, rfl⟩
  | none => exact ⟨db.wishes.nextID, rfl⟩

/-- The record returned by `CreateWish`, when there is one: the arguments were
accepted and the record is the one built from them, with the id set by the
repository. -/
theorem service.CreateWish_record (db : SqlDB) (now : Time)
    (ownerEmail title description : String) (w : Wish)
    (hw : (service.CreateWish { repo := NewPostgresRepo } now ownerEmail title description
      db).1.1 = some w) :
    ∃ id, w = { ID := id, OwnerEmail := ownerEmail, Title := title,
                Description := description, IsBought := false, BoughtAt := none,
                CreatedAt := now } ∧ ownerEmail ≠ "" ∧ title ≠ "" := by
  unfold service.CreateWish at hw
  by_cases h1 : ownerEmail = ""
  · simp [h1] at hw
  by_cases h2 : title = ""
  · simp [h1, h2] at hw
  simp only [h1, h2, if_false, NewPostgresRepo] at hw
  obtain ⟨id, hid⟩ := PostgresRepo.Create_record
    { ID := 0, OwnerEmail := ownerEmail, Title := title, Description := description,
      IsBought := false, BoughtAt := none, CreatedAt := now } db
  generalize PostgresRepo.Create
      { ID := 0, OwnerEmail := ownerEmail, Title := title, Description := description,
        IsBought := false, BoughtAt := none, CreatedAt := now } db = out at hid hw
  obtain ⟨⟨rec, err⟩, db1⟩ := out
  cases err with
  | some e => simp at hw
  | none =>
    simp only [Option.some.injEq] at hw hid
    exact ⟨id, by rw [← hw, hid], h1, h2⟩

/-- The table after `CreateWish`: the table before, or the table before with
one row inserted, built from accepted arguments. -/
theorem service.CreateWish_wishes (db : SqlDB) (now : Time)
    (ownerEmail title description : String) :
    (service.CreateWish { repo := NewPostgresRepo } now ownerEmail title description
        db).2.wishes = db.wishes ∨
    (ownerEmail ≠ "" ∧ title ≠ "" ∧
      (service.CreateWish { repo := NewPostgresRepo } now ownerEmail title description
        db).2.wishes = (db.wishes.insertReturningID ownerEmail title description now).2) := by
  unfold service.CreateWish
  by_cases h1 : ownerEmail = ""
  · left; simp [h1]
  by_cases h2 : title = ""
  · left; simp [h1, h2]
  simp only [h1, h2, if_false, NewPostgresRepo]
  have hst := PostgresRepo.Create_wishes
    { ID := 0, OwnerEmail := ownerEmail, Title := title, Description := description,
      IsBought := false, BoughtAt := none, CreatedAt := now } db
  generalize PostgresRepo.Create
      { ID := 0, OwnerEmail := ownerEmail, Title := title, Description := description,
        IsBought := false, BoughtAt := none, CreatedAt := now } db = out at hst
  obtain ⟨⟨rec, err⟩, db1⟩ := out
  cases err with
  | some e =>
    rcases hst with hst | hst
    · left; exact hst
    · right; exact ⟨h1, h2, hst⟩
  | none =>
    rcases hst with hst | hst
    · left; exact hst
    · right; exact ⟨h1, h2, hst⟩

/-- A predicate on rows that holds for the rows of the table and for any newly
inserted row built from the arguments still holds after `CreateWish`, and holds
for the record it returns. -/
theorem service.CreateWish_forall {P : Wish → Prop} (db : SqlDB) (now : Time)
    (ownerEmail title description : String) (h : ∀ w ∈ db.wishes.rows, P w)
    (hnew : ownerEmail ≠ "" → title ≠ "" →
      ∀ id, P { ID := id, OwnerEmail := ownerEmail, Title := title,
                Description := description, IsBought := false, BoughtAt := none,
                CreatedAt := now }) :
    (∀ w ∈ (service.CreateWish { repo := NewPostgresRepo } now ownerEmail title description
        db).2.wishes.rows, P w) ∧
    (∀ w, (service.CreateWish { repo := NewPostgresRepo } now ownerEmail title description
        db).1.1 = some w → P w) := by
  refine ⟨?_, ?_⟩
  · rcases service.CreateWish_wishes db now ownerEmail title description with hst | ⟨h1, h2, hst⟩
    · rw [hst]; exact h
    · rw [hst]; exact Table.forall_insert h _ _ _ _ (hnew h1 h2)
  · intro w hw
    obtain ⟨id, hid, h1, h2⟩ := service.CreateWish_record db now ownerEmail title description w hw
    rw [hid]
    exact hnew h1 h2 id

/-- A predicate on rows that holds for the rows of the table and is kept when
a row gets a new title and description and the purchase columns of a row of
the table still holds after `UpdateWish`, and holds for the record it
returns. -/
theorem service.UpdateWish_forall {P : Wish → Prop} (db : SqlDB) (id : Int)
    (title description : String) (h : ∀ w ∈ db.wishes.rows, P w)
    (hset : ∀ w w0, P w → P w0 →
      P { w with Title := title, Description := description, IsBought := w0.IsBought,
                 BoughtAt := w0.BoughtAt }) :
    (∀ w ∈ (service.UpdateWish { repo := NewPostgresRepo } id title description
        db).2.wishes.rows, P w) ∧
    (∀ w, (service.UpdateWish { repo := NewPostgresRepo } id title description
        db).1.1 = some w → P w) := by
  unfold service.UpdateWish
  simp only [NewPostgresRepo]
  have hw := PostgresRepo.GetByID_wishes id db
  cases hget : (PostgresRepo.GetByID id db).1 with
  | error err =>
    have hp : PostgresRepo.GetByID id db = (Except.error err, (PostgresRepo.GetByID id db).2) := by
      rw [← hget]
    rw [hp]
    simp only
    rw [hw]
    exact ⟨h, by intro w hw; simp at hw⟩
  | ok w0 =>
    have hp : PostgresRepo.GetByID id db = (Except.ok w0, (PostgresRepo.GetByID id db).2) := by
      rw [← hget]
    have hP0 : P w0 := h w0 (Table.selectByID_mem (PostgresRepo.GetByID_ok hget))
    rw [hp]
    simp only
    refine ⟨?_, ?_⟩
    · rcases PostgresRepo.Update_wishes
        { w0 with Title := title, Description := description }
        (PostgresRepo.GetByID id db).2 with hu | hu
      · rw [hu, hw]; exact h
      · rw [hu, hw]
        exact Table.forall_updateByID h _ _ _ _ _ (fun w hPw => hset w w0 hPw hP0)
    · intro w hwe
      simp only [Option.some.injEq] at hwe
      rw [← hwe]
      exact hset w0 w0 hP0 hP0

/-- A predicate on rows that holds for the rows of the table and is kept when
a row gets the title and description of a row of the table and is marked
bought at `now` still holds after `BuyWish`. -/
theorem service.BuyWish_forall {P : Wish → Prop} (db : SqlDB) (now : Time) (id : Int)
    (h : ∀ w ∈ db.wishes.rows, P w)
    (hset : ∀ w w0, P w → P w0 →
      P { w with Title := w0.Title, Description := w0.Description, IsBought := true,
                 BoughtAt := some now }) :
    ∀ w ∈ (service.BuyWish { repo := NewPostgresRepo } now id db).2.wishes.rows, P w := by
  unfold service.BuyWish
  simp only [NewPostgresRepo]
  have hw := PostgresRepo.GetByID_wishes id db
  cases hget : (PostgresRepo.GetByID id db).1 with
  | error err =>
    have hp : PostgresRepo.GetByID id db = (Except.error err, (PostgresRepo.GetByID id db).2) := by
      rw [← hget]
    rw [hp]
    simp only
    rw [hw]
    exact h
  | ok w0 =>
    have hp : PostgresRepo.GetByID id db = (Except.ok w0, (PostgresRepo.GetByID id db).2) := by
      rw [← hget]
    have hP0 : P w0 := h w0 (Table.selectByID_mem (PostgresRepo.GetByID_ok hget))
    rw [hp]
    simp only
    split
    · simp only
      rw [hw]
      exact h
    · rcases PostgresRepo.Update_wishes
        { w0 with IsBought := true, BoughtAt := some now }
        (PostgresRepo.GetByID id db).2 with hu | hu
      · rw [hu, hw]; exact h
      · rw [hu, hw]
        exact Table.forall_updateByID h _ _ _ _ _ (fun w hPw => hset w w0 hPw hP0)

/-- A predicate that holds for the rows of the table still holds after
`DeleteWish`. -/
theorem service.DeleteWish_forall {P : Wish → Prop} (db : SqlDB) (id : Int)
    (h : ∀ w ∈ db.wishes.rows, P w) :
    ∀ w ∈ (service.DeleteWish { repo := NewPostgresRepo } id db).2.wishes.rows, P w := by
  unfold service.DeleteWish
  simp only [NewPostgresRepo]
  rcases PostgresRepo.Delete_wishes id db with hd | hd
  · rw [hd]; exact h
  · rw [hd]; exact Table.forall_deleteByID h id

/-! ## `errors.Is` on sentinels -/

theorem errorsIs_eq_root (err target : Error) (ht : ∀ msg inner, target ≠ wrap msg inner) :
    errorsIs err target = decide (errorRoot err = target) := by
  induction err with
  | wrap msg inner ih =>
    have hne : wrap msg inner ≠ target := fun h => ht msg inner h.symm
    simp only [errorsIs, errorRoot, ih, hne, decide_False, Bool.false_or]
  | _ => simp [errorsIs, errorRoot]

theorem errorsIs_OwnerEmailRequired (err : Error) :
    errorsIs err ErrOwnerEmailRequired = decide (errorRoot err = ErrOwnerEmailRequired) :=
  errorsIs_eq_root err _ (by intro _ _ h; cases h)

theorem errorsIs_TitleRequired (err : Error) :
    errorsIs err ErrTitleRequired = decide (errorRoot err = ErrTitleRequired) :=
  errorsIs_eq_root err _ (by intro _ _ h; cases h)

theorem errorsIs_WishAlreadyBought (err : Error) :
    errorsIs err ErrWishAlreadyBought = decide (errorRoot err = ErrWishAlreadyBought) :=
  errorsIs_eq_root err _ (by intro _ _ h; cases h)

theorem errorsIs_WishNotFound (err : Error) :
    errorsIs err ErrWishNotFound = decide (errorRoot err = ErrWishNotFound) :=
  errorsIs_eq_root err _ (by intro _ _ h; cases h)

/-- The status computed by the chain of `errors.Is` tests of each handler, as a
function of the end of the `Unwrap` chain of the error. -/
theorem handlerStatus_some (ep : Endpoint) (err : Error) :
    handlerStatus ep (some err) =
      match ep with
      | Endpoint.create =>
        if errorsIs err ErrOwnerEmailRequired || errorsIs err ErrTitleRequired then 400 else 500
      | Endpoint.buy =>
        if errorsIs err ErrWishAlreadyBought then 400
        else if errorsIs err ErrWishNotFound then 404 else 500
      | Endpoint.list => 500
      | Endpoint.stats => 500
      | _ => if errorsIs err ErrWishNotFound then 404 else 500 := by
  cases ep <;>
    simp only [handlerStatus, specStatus, Endpoint.tested, List.any_cons, List.any_nil,
      errorsIs_OwnerEmailRequired, errorsIs_TitleRequired, errorsIs_WishAlreadyBought,
      errorsIs_WishNotFound, StatusBadRequest, StatusNotFound, StatusInternalServerError] <;>
    generalize errorRoot err = root <;>
    cases root <;> simp

/-! ## Status code of each handler -/

theorem CreateWishHandler_status {σ : Type} (svc : WishService σ) (r : Request) (st : σ)
    (req : createWishRequest) (hreq : r.createBody = some req)
    (hrec : (svc.CreateWish req.OwnerEmail req.Title req.Description st).1.2 = none →
      (svc.CreateWish req.OwnerEmail req.Title req.Description st).1.1 ≠ none) :
    (CreateWishHandler svc r st).1.map Response.code = some (handlerStatus Endpoint.create
      (svc.CreateWish req.OwnerEmail req.Title req.Description st).1.2) := by
  unfold CreateWishHandler
  simp only [hreq]
  generalize svc.CreateWish req.OwnerEmail req.Title req.Description st = out at hrec
  obtain ⟨⟨rec, err⟩, st1⟩ := out
  cases err with
  | some e =>
    simp only [handlerStatus_some]
    split <;> rfl
  | none =>
    cases rec with
    | none => exact absurd rfl (hrec rfl)
    | some w => rfl

theorem GetWishHandler_status {σ : Type} (svc : WishService σ) (r : Request) (st : σ)
    (id : Int) (hid : r.pathID = some id)
    (hrec : (svc.GetWish id st).1.2 = none → (svc.GetWish id st).1.1 ≠ none) :
    (GetWishHandler svc r st).1.map Response.code
      = some (handlerStatus Endpoint.get (svc.GetWish id st).1.2) := by
  unfold GetWishHandler
  simp only [hid]
  generalize svc.GetWish id st = out at hrec
  obtain ⟨⟨rec, err⟩, st1⟩ := out
  cases err with
  | some e =>
    simp only [handlerStatus_some]
    split <;> rfl
  | none =>
    cases rec with
    | none => exact absurd rfl (hrec rfl)
    | some w => rfl

theorem ListWishHandler_status {σ : Type} (svc : WishService σ) (r : Request) (st : σ)
    (bought : Option Bool) (howner : r.ownerEmail ≠ "")
    (hb : (r.bought = "" ∧ bought = none) ∨
      (r.bought ≠ "" ∧ ∃ b, ParseBool r.bought = some b ∧ bought = some b)) :
    (ListWishHandler svc r st).1.map Response.code
      = some (handlerStatus Endpoint.list (svc.ListWishes r.ownerEmail bought st).1.2) := by
  unfold ListWishHandler
  simp only [howner, if_false]
  have hparsed : (if r.bought ≠ "" then
        match ParseBool r.bought with
        | none => none
        | some b => some (some b)
      else some none) = some bought := by
    rcases hb with ⟨h1, h2⟩ | ⟨h1, b, h2, h3⟩
    · simp [h1, h2]
    · simp [h1, h2, h3]
  rw [hparsed]
  simp only
  generalize svc.ListWishes r.ownerEmail bought st = out
  obtain ⟨⟨wishes, err⟩, st1⟩ := out
  cases err with
  | some e => simp only [handlerStatus_some]; rfl
  | none => rfl

theorem UpdateWishHandler_status {σ : Type} (svc : WishService σ) (r : Request) (st : σ)
    (id : Int) (req : updateWishRequest) (hid : r.pathID = some id)
    (hreq : r.updateBody = some req)
    (hrec : (svc.UpdateWish id req.Title req.Description st).1.2 = none →
      (svc.UpdateWish id req.Title req.Description st).1.1 ≠ none) :
    (UpdateWishHandler svc r st).1.map Response.code = some (handlerStatus Endpoint.update
      (svc.UpdateWish id req.Title req.Description st).1.2) := by
  unfold UpdateWishHandler
  simp only [hid, hreq]
  generalize svc.UpdateWish id req.Title req.Description st = out at hrec
  obtain ⟨⟨rec, err⟩, st1⟩ := out
  cases err with
  | some e =>
    simp only [handlerStatus_some]
    split <;> rfl
  | none =>
    cases rec with
    | none => exact absurd rfl (hrec rfl)
    | some w => rfl

theorem DeleteWishHandler_status {σ : Type} (svc : WishService σ) (r : Request) (st : σ)
    (id : Int) (hid : r.pathID = some id) :
    (DeleteWishHandler svc r st).1.map Response.code
      = some (handlerStatus Endpoint.delete (svc.DeleteWish id st).1) := by
  unfold DeleteWishHandler
  simp only [hid]
  generalize svc.DeleteWish id st = out
  obtain ⟨err, st1⟩ := out
  cases err with
  | some e =>
    simp only [handlerStatus_some]
    split <;> rfl
  | none => rfl

theorem BuyWishHandler_status {σ : Type} (svc : WishService σ) (r : Request) (st : σ)
    (id : Int) (hid : r.pathID = some id) :
    (BuyWishHandler svc r st).1.map Response.code
      = some (handlerStatus Endpoint.buy (svc.BuyWish id st).1) := by
  unfold BuyWishHandler
  simp only [hid]
  generalize svc.BuyWish id st = out
  obtain ⟨err, st1⟩ := out
  cases err with
  | some e =>
    simp only [handlerStatus_some]
    split
    · rfl
    · split <;> rfl
  | none => rfl

theorem StatsHandler_status {σ : Type} (svc : WishService σ) (r : Request) (st : σ)
    (howner : r.ownerEmail ≠ "") :
    (StatsHandler svc r st).1.map Response.code
      = some (handlerStatus Endpoint.stats (svc.GetStats r.ownerEmail st).1.2) := by
  unfold StatsHandler
  simp only [howner, if_false]
  generalize svc.GetStats r.ownerEmail st = out
  obtain ⟨⟨stats, err⟩, st1⟩ := out
  cases err with
  | some e => simp only [handlerStatus_some]; rfl
  | none => rfl

/-- Where the error is not a sentinel that the handler leaves untested, the
status of the handler is the one of the table of the specification. -/
theorem handlerStatus_eq_specStatus (ep : Endpoint) (err : Option Error)
    (h : ∀ e, err = some e → ∀ target ∈ sentinels, errorsIs e target = true →
      target ∈ ep.tested) :
    handlerStatus ep err = specStatus ep err := by
  cases err with
  | none => rfl
  | some e =>
    have h1 := h e rfl
    rw [handlerStatus_some]
    simp only [sentinels, List.mem_cons, List.mem_singleton, List.not_mem_nil, or_false,
      forall_eq_or_imp, forall_eq] at h1
    simp only [specStatus, errorsIs_OwnerEmailRequired, errorsIs_TitleRequired,
      errorsIs_WishAlreadyBought, errorsIs_WishNotFound] at h1 ⊢
    generalize errorRoot e = root at h1 ⊢
    cases ep <;> cases root <;>
      simp_all [Endpoint.tested, StatusBadRequest, StatusNotFound, StatusInternalServerError]

/-- On a sentinel that the handler leaves untested the status is 500. -/
theorem handlerStatus_untested (ep : Endpoint) (e : Error)
    (h : ∃ target ∈ sentinels, errorsIs e target = true ∧ target ∉ ep.tested) :
    handlerStatus ep (some e) = 500 := by
  obtain ⟨target, ht, his, hnot⟩ := h
  rw [handlerStatus_some]
  simp only [sentinels, List.mem_cons, List.mem_singleton, List.not_mem_nil, or_false] at ht
  simp only [errorsIs_OwnerEmailRequired, errorsIs_TitleRequired,
    errorsIs_WishAlreadyBought, errorsIs_WishNotFound]
  rcases ht with rfl | rfl | rfl | rfl
  · have e1 : errorRoot e = ErrOwnerEmailRequired := by
      simpa [errorsIs_OwnerEmailRequired] using his
    rw [e1]
    cases ep <;> simp [Endpoint.tested] at hnot ⊢
  · have e1 : errorRoot e = ErrTitleRequired := by
      simpa [errorsIs_TitleRequired] using his
    rw [e1]
    cases ep <;> simp [Endpoint.tested] at hnot ⊢
  · have e1 : errorRoot e = ErrWishAlreadyBought := by
      simpa [errorsIs_WishAlreadyBought] using his
    rw [e1]
    cases ep <;> simp [Endpoint.tested] at hnot ⊢
  · have e1 : errorRoot e = ErrWishNotFound := by
      simpa [errorsIs_WishNotFound] using his
    rw [e1]
    cases ep <;> simp [Endpoint.tested] at hnot ⊢

/-! ## The key constraint is kept by every operation -/

theorem Table.keyed_insert {t : Table} (h : t.keyed) (ownerEmail title description : String)
    (createdAt : Time) : (t.insertReturningID ownerEmail title description createdAt).2.keyed := by
  obtain ⟨hnd, hlt⟩ := h
  constructor
  · simp only [Table.insertReturningID, List.map_append, List.map_cons, List.map_nil]
    rw [List.nodup_append]
    refine ⟨hnd, List.nodup_singleton _, ?_⟩
    intro a ha hb
    simp only [List.mem_singleton] at hb
    rw [List.mem_map] at ha
    obtain ⟨w, hw, hwa⟩ := ha
    have := hlt w hw
    omega
  · intro w hw
    simp only [Table.insertReturningID, List.mem_append, List.mem_singleton] at hw ⊢
    rcases hw with hw | hw
    · have := hlt w hw
      omega
    · rw [hw]
      simp

theorem Table.keyed_updateByID {t : Table} (h : t.keyed) (title description : String)
    (isBought : Bool) (boughtAt : Option Time) (id : Int) :
    (t.updateByID title description isBought boughtAt id).2.keyed := by
  obtain ⟨hnd, hlt⟩ := h
  have hids : (t.updateByID title description isBought boughtAt id).2.rows.map Wish.ID
      = t.rows.map Wish.ID := by
    simp only [Table.updateByID, List.map_map]
    apply List.map_congr_left
    intro a _
    simp only [Function.comp]
    split <;> rfl
  constructor
  · rw [hids]; exact hnd
  · intro w hw
    have hmem : w.ID ∈ (t.updateByID title description isBought boughtAt id).2.rows.map
        Wish.ID := List.mem_map_of_mem _ hw
    rw [hids, List.mem_map] at hmem
    obtain ⟨v, hv, hvw⟩ := hmem
    have := hlt v hv
    simp only [Table.updateByID]
    omega

theorem Table.keyed_deleteByID {t : Table} (h : t.keyed) (id : Int) :
    (t.deleteByID id).2.keyed := by
  obtain ⟨hnd, hlt⟩ := h
  constructor
  · simp only [Table.deleteByID]
    exact hnd.sublist ((List.filter_sublist _).map Wish.ID)
  · intro w hw
    simp only [Table.deleteByID] at hw ⊢
    exact hlt w (List.mem_of_mem_filter hw)

/-- The table after `UpdateWish`: the table before, or the table before with
the rows of one id overwritten. -/
theorem service.UpdateWish_wishes (db : SqlDB) (id : Int) (title description : String) :
    (service.UpdateWish { repo := NewPostgresRepo } id title description db).2.wishes
        = db.wishes ∨
    ∃ w0 ∈ db.wishes.rows,
      (service.UpdateWish { repo := NewPostgresRepo } id title description db).2.wishes
        = (db.wishes.updateByID title description w0.IsBought w0.BoughtAt w0.ID).2 := by
  unfold service.UpdateWish
  simp only [NewPostgresRepo]
  have hw := PostgresRepo.GetByID_wishes id db
  cases hget : (PostgresRepo.GetByID id db).1 with
  | error err =>
    have hp : PostgresRepo.GetByID id db = (Except.error err, (PostgresRepo.GetByID id db).2) := by
      rw [← hget]
    rw [hp]
    left
    exact hw
  | ok w0 =>
    have hp : PostgresRepo.GetByID id db = (Except.ok w0, (PostgresRepo.GetByID id db).2) := by
      rw [← hget]
    rw [hp]
    simp only
    rcases PostgresRepo.Update_wishes
      { w0 with Title := title, Description := description }
      (PostgresRepo.GetByID id db).2 with hu | hu
    · left; rw [hu, hw]
    · right
      refine ⟨w0, Table.selectByID_mem (PostgresRepo.GetByID_ok hget), ?_⟩
      rw [hu, hw]

/-- The table after `BuyWish`: the table before, or the table before with the
rows of one id marked bought. -/
theorem service.BuyWish_wishes (db : SqlDB) (now : Time) (id : Int) :
    (service.BuyWish { repo := NewPostgresRepo } now id db).2.wishes = db.wishes ∨
    ∃ w0 ∈ db.wishes.rows,
      (service.BuyWish { repo := NewPostgresRepo } now id db).2.wishes
        = (db.wishes.updateByID w0.Title w0.Description true (some now) w0.ID).2 := by
  unfold service.BuyWish
  simp only [NewPostgresRepo]
  have hw := PostgresRepo.GetByID_wishes id db
  cases hget : (PostgresRepo.GetByID id db).1 with
  | error err =>
    have hp : PostgresRepo.GetByID id db = (Except.error err, (PostgresRepo.GetByID id db).2) := by
      rw [← hget]
    rw [hp]
    left
    exact hw
  | ok w0 =>
    have hp : PostgresRepo.GetByID id db = (Except.ok w0, (PostgresRepo.GetByID id db).2) := by
      rw [← hget]
    rw [hp]
    simp only
    split
    · left; exact hw
    · rcases PostgresRepo.Update_wishes
        { w0 with IsBought := true, BoughtAt := some now }
        (PostgresRepo.GetByID id db).2 with hu | hu
      · left; rw [hu, hw]
      · right
        refine ⟨w0, Table.selectByID_mem (PostgresRepo.GetByID_ok hget), ?_⟩
        rw [hu, hw]

/-! ## Where the errors of the repository-backed service come from -/

theorem SqlDB.call_reports {db : SqlDB} {e : Error} (h : db.call.1 = some e) :
    some e ∈ db.driver := by
  cases db with
  | mk t d =>
    cases d with
    | nil => simp [SqlDB.call] at h
    | cons o rest =>
      simp only [SqlDB.call] at h
      simp [h]

theorem SqlDB.call_driver (db : SqlDB) : ∀ x ∈ db.call.2.driver, x ∈ db.driver := by
  rw [SqlDB.call_eq]
  intro x hx
  exact List.mem_of_mem_tail hx

theorem PostgresRepo.Create_err {wish : Wish} {db : SqlDB} {e : Error}
    (h : (PostgresRepo.Create wish db).1.2 = some e) : some e ∈ db.driver := by
  unfold PostgresRepo.Create at h
  cases hc : db.call with
  | mk f db1 =>
    have hf : db.call.1 = f := by rw [hc]
    rw [hc] at h
    cases f with
    | some err =>
      simp only [Option.some.injEq] at h
      subst h
      exact SqlDB.call_reports hf
    | none => simp at h

theorem PostgresRepo.GetByID_error {id : Int} {db : SqlDB} {e : Error}
    (h : (PostgresRepo.GetByID id db).1 = Except.error e) :
    e = ErrWishNotFound ∨ some e ∈ db.driver := by
  unfold PostgresRepo.GetByID at h
  cases hc : db.call with
  | mk f db1 =>
    have hf : db.call.1 = f := by rw [hc]
    rw [hc] at h
    cases f with
    | some err =>
      simp only at h
      split at h
      · left
        simp only [Except.error.injEq] at h
        exact h.symm
      · right
        simp only [Except.error.injEq] at h
        subst h
        exact SqlDB.call_reports hf
    | none =>
      simp only at h
      cases hsel : db1.wishes.selectByID id with
      | none =>
        left
        simp only [hsel, errorsIs, decide_True, if_true, Except.error.injEq] at h
        exact h.symm
      | some w => simp [hsel] at h

theorem PostgresRepo.GetByID_driver (id : Int) (db : SqlDB) :
    ∀ x ∈ (PostgresRepo.GetByID id db).2.driver, x ∈ db.driver := by
  have hd : (PostgresRepo.GetByID id db).2 = db.call.2 := by
    unfold PostgresRepo.GetByID
    simp only
    split <;> [split; skip] <;> rfl
  rw [hd]
  exact SqlDB.call_driver db

theorem PostgresRepo.Update_err {wish : Wish} {db : SqlDB} {e : Error}
    (h : (PostgresRepo.Update wish db).1 = some e) :
    e = ErrWishNotFound ∨ some e ∈ db.driver := by
  unfold PostgresRepo.Update at h
  cases hc : db.call with
  | mk f db1 =>
    have hf : db.call.1 = f := by rw [hc]
    have hd : ∀ x ∈ db1.driver, x ∈ db.driver := by
      have := SqlDB.call_driver db
      rw [hc] at this
      exact this
    rw [hc] at h
    cases f with
    | some err =>
      right
      simp only [Option.some.injEq] at h
      subst h
      exact SqlDB.call_reports hf
    | none =>
      simp only at h
      cases hc2 : SqlDB.call { wishes := (db1.wishes.updateByID wish.Title wish.Description
          wish.IsBought wish.BoughtAt wish.ID).2, driver := db1.driver } with
      | mk g db2 =>
        have hg : (SqlDB.call { wishes := (db1.wishes.updateByID wish.Title wish.Description
          wish.IsBought wish.BoughtAt wish.ID).2, driver := db1.driver }).1 = g := by rw [hc2]
        rw [hc2] at h
        cases g with
        | some err =>
          right
          simp only [Option.some.injEq] at h
          subst h
          have hm := SqlDB.call_reports hg
          exact hd _ hm
        | none =>
          left
          simp only at h
          split at h
          · simp only [Option.some.injEq] at h
            exact h.symm
          · simp at h

theorem PostgresRepo.Delete_err {id : Int} {db : SqlDB} {e : Error}
    (h : (PostgresRepo.Delete id db).1 = some e) :
    e = ErrWishNotFound ∨ some e ∈ db.driver := by
  unfold PostgresRepo.Delete at h
  cases hc : db.call with
  | mk f db1 =>
    have hf : db.call.1 = f := by rw [hc]
    have hd : ∀ x ∈ db1.driver, x ∈ db.driver := by
      have := SqlDB.call_driver db
      rw [hc] at this
      exact this
    rw [hc] at h
    cases f with
    | some err =>
      right
      simp only [Option.some.injEq] at h
      subst h
      exact SqlDB.call_reports hf
    | none =>
      simp only at h
      cases hc2 : SqlDB.call { wishes := (db1.wishes.deleteByID id).2, driver := db1.driver } with
      | mk g db2 =>
        have hg : (SqlDB.call { wishes := (db1.wishes.deleteByID id).2,
                                driver := db1.driver }).1 = g := by rw [hc2]
        rw [hc2] at h
        cases g with
        | some err =>
          right
          simp only [Option.some.injEq] at h
          subst h
          have hm := SqlDB.call_reports hg
          exact hd _ hm
        | none =>
          left
          simp only at h
          split at h
          · simp only [Option.some.injEq] at h
            exact h.symm
          · simp at h

theorem PostgresRepo.Stats_err {ownerEmail : String} {db : SqlDB} {e : Error}
    (h : (PostgresRepo.Stats ownerEmail db).1.2 = some e) : some e ∈ db.driver := by
  unfold PostgresRepo.Stats at h
  cases hc : db.call with
  | mk f db1 =>
    have hf : db.call.1 = f := by rw [hc]
    rw [hc] at h
    cases f with
    | some err =>
      simp only [Option.some.injEq] at h
      subst h
      exact SqlDB.call_reports hf
    | none => simp at h

theorem PostgresRepo.scanRows_err (rows wishes : List Wish) (db : SqlDB) (e : Error)
    (h : (PostgresRepo.scanRows rows wishes db).1.2 = some e) : some e ∈ db.driver := by
  induction rows generalizing wishes db with
  | nil =>
    simp only [PostgresRepo.scanRows] at h
    exact SqlDB.call_reports h
  | cons row rest ih =>
    simp only [PostgresRepo.scanRows] at h
    cases hc : db.call with
    | mk f db1 =>
      have hf : db.call.1 = f := by rw [hc]
      have hd : ∀ x ∈ db1.driver, x ∈ db.driver := by
        have := SqlDB.call_driver db
        rw [hc] at this
        exact this
      rw [hc] at h
      cases f with
      | some err =>
        simp only [Option.some.injEq] at h
        subst h
        exact SqlDB.call_reports hf
      | none =>
        simp only at h
        cases hc2 : db1.call with
        | mk g db2 =>
          have hg : db1.call.1 = g := by rw [hc2]
          have hd2 : ∀ x ∈ db2.driver, x ∈ db1.driver := by
            have := SqlDB.call_driver db1
            rw [hc2] at this
            exact this
          rw [hc2] at h
          cases g with
          | some err =>
            simp only [Option.some.injEq] at h
            subst h
            exact hd _ (SqlDB.call_reports hg)
          | none =>
            simp only at h
            exact hd _ (hd2 _ (ih _ _ h))

theorem PostgresRepo.ListRows_err {ownerEmail : String} {bought : Option Bool} {db : SqlDB}
    {e : Error} (h : (PostgresRepo.ListRows ownerEmail bought db).1.2 = some e) :
    some e ∈ db.driver := by
  unfold PostgresRepo.ListRows at h
  cases hc : db.call with
  | mk f db1 =>
    have hf : db.call.1 = f := by rw [hc]
    have hd : ∀ x ∈ db1.driver, x ∈ db.driver := by
      have := SqlDB.call_driver db
      rw [hc] at this
      exact this
    rw [hc] at h
    cases f with
    | some err =>
      simp only [Option.some.injEq] at h
      subst h
      exact SqlDB.call_reports hf
    | none =>
      simp only at h
      exact hd _ (PostgresRepo.scanRows_err _ _ _ _ h)

theorem service.CreateWish_err {db : SqlDB} {now : Time} {ownerEmail title description : String}
    {e : Error}
    (h : (service.CreateWish { repo := NewPostgresRepo } now ownerEmail title description
      db).1.2 = some e) :
    e = ErrOwnerEmailRequired ∨ e = ErrTitleRequired ∨ some e ∈ db.driver := by
  unfold service.CreateWish at h
  by_cases h1 : ownerEmail = ""
  · left
    simp only [h1, if_true, Option.some.injEq] at h
    exact h.symm
  by_cases h2 : title = ""
  · right; left
    simp only [h1, h2, if_true, if_false, Option.some.injEq] at h
    exact h.symm
  right; right
  simp only [h1, h2, if_false, NewPostgresRepo] at h
  have herr := @PostgresRepo.Create_err
    { ID := 0, OwnerEmail := ownerEmail, Title := title, Description := description,
      IsBought := false, BoughtAt := none, CreatedAt := now } db e
  generalize PostgresRepo.Create
      { ID := 0, OwnerEmail := ownerEmail, Title := title, Description := description,
        IsBought := false, BoughtAt := none, CreatedAt := now } db = out at h herr
  obtain ⟨⟨rec, err⟩, db1⟩ := out
  cases err with
  | some e1 => exact herr h
  | none => simp at h

theorem service.CreateWish_record_or_error (db : SqlDB) (now : Time)
    (ownerEmail title description : String) :
    (service.CreateWish { repo := NewPostgresRepo } now ownerEmail title description
      db).1.2 = none →
    (service.CreateWish { repo := NewPostgresRepo } now ownerEmail title description
      db).1.1 ≠ none := by
  unfold service.CreateWish
  by_cases h1 : ownerEmail = ""
  · simp [h1]
  by_cases h2 : title = ""
  · simp [h1, h2]
  simp only [h1, h2, if_false, NewPostgresRepo]
  generalize PostgresRepo.Create
      { ID := 0, OwnerEmail := ownerEmail, Title := title, Description := description,
        IsBought := false, BoughtAt := none, CreatedAt := now } db = out
  obtain ⟨⟨rec, err⟩, db1⟩ := out
  cases err <;> simp

theorem service.GetWish_err {db : SqlDB} {id : Int} {e : Error}
    (h : (service.GetWish { repo := NewPostgresRepo } id db).1.2 = some e) :
    e = ErrWishNotFound ∨ some e ∈ db.driver := by
  unfold service.GetWish at h
  simp only [NewPostgresRepo] at h
  have herr := @PostgresRepo.GetByID_error id db e
  generalize PostgresRepo.GetByID id db = out at h herr
  obtain ⟨res, db1⟩ := out
  cases res with
  | error err =>
    simp only [Option.some.injEq] at h
    subst h
    exact herr rfl
  | ok w => simp at h

theorem service.GetWish_record_or_error (db : SqlDB) (id : Int) :
    (service.GetWish { repo := NewPostgresRepo } id db).1.2 = none →
    (service.GetWish { repo := NewPostgresRepo } id db).1.1 ≠ none := by
  unfold service.GetWish
  simp only [NewPostgresRepo]
  generalize PostgresRepo.GetByID id db = out
  obtain ⟨res, db1⟩ := out
  cases res <;> simp

theorem service.UpdateWish_err {db : SqlDB} {id : Int} {title description : String} {e : Error}
    (h : (service.UpdateWish { repo := NewPostgresRepo } id title description db).1.2 = some e) :
    e = ErrWishNotFound ∨ some e ∈ db.driver := by
  unfold service.UpdateWish at h
  simp only [NewPostgresRepo] at h
  have herr := @PostgresRepo.GetByID_error id db e
  have hdrv := PostgresRepo.GetByID_driver id db
  generalize PostgresRepo.GetByID id db = out at h herr hdrv
  obtain ⟨res, db1⟩ := out
  cases res with
  | error err =>
    simp only [Option.some.injEq] at h
    subst h
    exact herr rfl
  | ok w =>
    simp only at h
    rcases PostgresRepo.Update_err h with hu | hu
    · left; exact hu
    · right; exact hdrv _ hu

theorem service.UpdateWish_record_or_error (db : SqlDB) (id : Int)
    (title description : String) :
    (service.UpdateWish { repo := NewPostgresRepo } id title description db).1.2 = none →
    (service.UpdateWish { repo := NewPostgresRepo } id title description db).1.1 ≠ none := by
  unfold service.UpdateWish
  simp only [NewPostgresRepo]
  generalize PostgresRepo.GetByID id db = out
  obtain ⟨res, db1⟩ := out
  cases res <;> simp

theorem service.BuyWish_err {db : SqlDB} {now : Time} {id : Int} {e : Error}
    (h : (service.BuyWish { repo := NewPostgresRepo } now id db).1 = some e) :
    e = ErrWishAlreadyBought ∨ e = ErrWishNotFound ∨ some e ∈ db.driver := by
  unfold service.BuyWish at h
  simp only [NewPostgresRepo] at h
  have herr := @PostgresRepo.GetByID_error id db e
  have hdrv := PostgresRepo.GetByID_driver id db
  generalize PostgresRepo.GetByID id db = out at h herr hdrv
  obtain ⟨res, db1⟩ := out
  cases res with
  | error err =>
    right
    simp only [Option.some.injEq] at h
    subst h
    exact herr rfl
  | ok w =>
    simp only at h
    split at h
    · left
      simp only [Option.some.injEq] at h
      exact h.symm
    · right
      rcases PostgresRepo.Update_err h with hu | hu
      · left; exact hu
      · right; exact hdrv _ hu

theorem errorsIs_sentinel_self {e target : Error} (he : e ∈ sentinels)
    (ht : target ∈ sentinels) (h : errorsIs e target = true) : target = e := by
  simp only [sentinels, List.mem_cons, List.mem_singleton, List.not_mem_nil, or_false] at he ht
  rcases he with rfl | rfl | rfl | rfl <;> rcases ht with rfl | rfl | rfl | rfl <;>
    first | rfl | (simp [errorsIs] at h)

/-! ## Properties of the reachable states, and the handlers over any service -/

/-- The part of the invariant of C7 that the service does keep: a non-empty
owner email and a non-empty title on every row are preserved by `CreateWish`,
`BuyWish` and `DeleteWish` with any arguments, and by `UpdateWish` when the new
title is not empty. -/
theorem named_preserved (db : SqlDB) (now : Time) (id : Int)
    (ownerEmail title description : String) (hinv : db.wishes.named) :
    (service.CreateWish { repo := NewPostgresRepo } now ownerEmail title description
        db).2.wishes.named ∧
    (title ≠ "" →
      (service.UpdateWish { repo := NewPostgresRepo } id title description
        db).2.wishes.named) ∧
    (service.BuyWish { repo := NewPostgresRepo } now id db).2.wishes.named ∧
    (service.DeleteWish { repo := NewPostgresRepo } id db).2.wishes.named := by
  refine ⟨?_, ?_, ?_, ?_⟩
  · exact (service.CreateWish_forall db now ownerEmail title description hinv
      (fun h1 h2 _ => ⟨h1, h2⟩)).1
  · intro ht
    exact (service.UpdateWish_forall db id title description hinv
      (fun w w0 hw _ => ⟨hw.1, ht⟩)).1
  · exact service.BuyWish_forall db now id hinv
      (fun w w0 hw h0 => ⟨hw.1, h0.2⟩)
  · exact service.DeleteWish_forall db id hinv

/-- The key constraint assumed by C2 and C8 holds in every state the service
can reach: it holds for the empty table and is kept by `CreateWish`,
`UpdateWish`, `BuyWish` and `DeleteWish`, with any arguments and whatever the
driver reports. -/
theorem keyed_preserved (db : SqlDB) (now : Time) (id : Int)
    (ownerEmail title description : String) (hkey : db.wishes.keyed) :
    (service.CreateWish { repo := NewPostgresRepo } now ownerEmail title description
        db).2.wishes.keyed ∧
    (service.UpdateWish { repo := NewPostgresRepo } id title description db).2.wishes.keyed ∧
    (service.BuyWish { repo := NewPostgresRepo } now id db).2.wishes.keyed ∧
    (service.DeleteWish { repo := NewPostgresRepo } id db).2.wishes.keyed := by
  refine ⟨?_, ?_, ?_, ?_⟩
  · rcases service.CreateWish_wishes db now ownerEmail title description with h | ⟨_, _, h⟩
    · rw [h]; exact hkey
    · rw [h]; exact Table.keyed_insert hkey _ _ _ _
  · rcases service.UpdateWish_wishes db id title description with h | ⟨w0, _, h⟩
    · rw [h]; exact hkey
    · rw [h]; exact Table.keyed_updateByID hkey _ _ _ _ _
  · rcases service.BuyWish_wishes db now id with h | ⟨w0, _, h⟩
    · rw [h]; exact hkey
    · rw [h]; exact Table.keyed_updateByID hkey _ _ _ _ _
  · unfold service.DeleteWish
    simp only [NewPostgresRepo]
    rcases PostgresRepo.Delete_wishes id db with h | h
    · rw [h]; exact hkey
    · rw [h]; exact Table.keyed_deleteByID hkey id

theorem keyed_empty (nextID : Int) : Table.keyed { rows := [], nextID := nextID } := by
  simp [Table.keyed]

/-- The handlers over any `WishService`: for a request that decodes, when the
service call returns an error, or a record with no error (a handler that gets
neither dereferences a nil record), the status is the one of `handlerStatus`.
It is the table of the specification wherever the error is not a sentinel the
handler leaves untested, and 500 on such a sentinel. -/
theorem handlers_follow_handlerStatus {σ : Type} (svc : WishService σ) (r : Request) (st : σ) :
    (∀ req, r.createBody = some req →
      ((svc.CreateWish req.OwnerEmail req.Title req.Description st).1.2 = none →
        (svc.CreateWish req.OwnerEmail req.Title req.Description st).1.1 ≠ none) →
      (CreateWishHandler svc r st).1.map Response.code = some (handlerStatus Endpoint.create
        (svc.CreateWish req.OwnerEmail req.Title req.Description st).1.2)) ∧
    (∀ id, r.pathID = some id →
      ((svc.GetWish id st).1.2 = none → (svc.GetWish id st).1.1 ≠ none) →
      (GetWishHandler svc r st).1.map Response.code
        = some (handlerStatus Endpoint.get (svc.GetWish id st).1.2)) ∧
    (∀ bought, r.ownerEmail ≠ "" →
      ((r.bought = "" ∧ bought = none) ∨
        (r.bought ≠ "" ∧ ∃ b, ParseBool r.bought = some b ∧ bought = some b)) →
      (ListWishHandler svc r st).1.map Response.code
        = some (handlerStatus Endpoint.list (svc.ListWishes r.ownerEmail bought st).1.2)) ∧
    (∀ id req, r.pathID = some id → r.updateBody = some req →
      ((svc.UpdateWish id req.Title req.Description st).1.2 = none →
        (svc.UpdateWish id req.Title req.Description st).1.1 ≠ none) →
      (UpdateWishHandler svc r st).1.map Response.code = some (handlerStatus Endpoint.update
        (svc.UpdateWish id req.Title req.Description st).1.2)) ∧
    (∀ id, r.pathID = some id →
      (DeleteWishHandler svc r st).1.map Response.code
        = some (handlerStatus Endpoint.delete (svc.DeleteWish id st).1)) ∧
    (∀ id, r.pathID = some id →
      (BuyWishHandler svc r st).1.map Response.code
        = some (handlerStatus Endpoint.buy (svc.BuyWish id st).1)) ∧
    (r.ownerEmail ≠ "" →
      (StatsHandler svc r st).1.map Response.code
        = some (handlerStatus Endpoint.stats (svc.GetStats r.ownerEmail st).1.2)) ∧
    (∀ (ep : Endpoint) (err : Option Error),
      (∀ e, err = some e → ∀ target ∈ sentinels, errorsIs e target = true → target ∈ ep.tested) →
      handlerStatus ep err = specStatus ep err) ∧
    (∀ (ep : Endpoint) (e : Error),
      (∃ target ∈ sentinels, errorsIs e target = true ∧ target ∉ ep.tested) →
      handlerStatus ep (some e) = 500) :=
  ⟨fun req hreq hrec => CreateWishHandler_status svc r st req hreq hrec,
   fun id hid hrec => GetWishHandler_status svc r st id hid hrec,
   fun bought howner hb => ListWishHandler_status svc r st bought howner hb,
   fun id req hid hreq hrec => UpdateWishHandler_status svc r st id req hid hreq hrec,
   fun id hid => DeleteWishHandler_status svc r st id hid,
   fun id hid => BuyWishHandler_status svc r st id hid,
   fun howner => StatsHandler_status svc r st howner,
   handlerStatus_eq_specStatus,
   handlerStatus_untested⟩

/-- A service other than the one of `NewService` can return a sentinel that a
handler leaves untested: when the service call of `UpdateWishHandler` returns
`ErrTitleRequired`, the handler answers 500. -/
theorem UpdateWishHandler_untested_TitleRequired :
    ((failingService ErrTitleRequired).UpdateWish 1 "Atlas" "" ()).1
      = (none, some ErrTitleRequired) ∧
    errorsIs ErrTitleRequired ErrTitleRequired = true ∧
    specStatus Endpoint.update (some ErrTitleRequired) = 400 ∧
    (UpdateWishHandler (failingService ErrTitleRequired) sampleUpdateRequest ()).1.map
      Response.code = some 500 := by
  decide

/-! ## The claims -/

/-- C1: for every repository and every description, `CreateWish` with an empty
owner email returns `ErrOwnerEmailRequired` and no record, and with a non-empty
owner email and an empty title it returns `ErrTitleRequired` and no record; in
both cases the state of the store is the one before the call and no repository
method is called (the call log of the recording repository is unchanged). -/
theorem C1_CreateWish_validation {σ : Type} (s : service σ) (now : Time)
    (ownerEmail title description : String) (st : σ) :
    (ownerEmail = "" →
      s.CreateWish now ownerEmail title description st
        = ((none, some ErrOwnerEmailRequired), st)) ∧
    (ownerEmail ≠ "" → title = "" →
      s.CreateWish now ownerEmail title description st
        = ((none, some ErrTitleRequired), st)) ∧
    (ownerEmail = "" ∨ title = "" → ∀ log : List Call,
      (service.CreateWish { repo := traced s.repo } now ownerEmail title description
        (st, log)).2 = (st, log)) := by
  refine ⟨?_, ?_, ?_⟩
  · intro h
    simp [service.CreateWish, h]
  · intro h1 h2
    simp [service.CreateWish, h1, h2]
  · intro h log
    by_cases h1 : ownerEmail = ""
    · simp [service.CreateWish, h1]
    · have h2 : title = "" := h.resolve_left h1
      simp [service.CreateWish, h1, h2]

/-- Instance of C1 on the sample database: an empty owner email, then an empty title. -/
theorem C1_CreateWish_validation_witness :
    ("" : String) = "" ∧ ("a@x.com" : String) ≠ "" ∧
    service.CreateWish { repo := NewPostgresRepo } 30 "" "Book" "novel" sampleDB
      = ((none, some ErrOwnerEmailRequired), sampleDB) ∧
    service.CreateWish { repo := NewPostgresRepo } 30 "a@x.com" "" "novel" sampleDB
      = ((none, some ErrTitleRequired), sampleDB) ∧
    (service.CreateWish { repo := traced NewPostgresRepo } 30 "a@x.com" "" "novel"
      (sampleDB, [])).2 = (sampleDB, []) :=
  ⟨rfl, by decide,
   (C1_CreateWish_validation { repo := NewPostgresRepo } 30 "" "Book" "novel" sampleDB).1 rfl,
   (C1_CreateWish_validation { repo := NewPostgresRepo } 30 "a@x.com" "" "novel" sampleDB).2.1
     (by decide) rfl,
   (C1_CreateWish_validation { repo := NewPostgresRepo } 30 "a@x.com" "" "novel" sampleDB).2.2
     (Or.inr rfl) []⟩

/-- C2: when `id` is the key of the table, the row `w` stored under `id` is not
bought and the driver calls go through, `BuyWish id` succeeds; afterwards the
row stored under `id` is `w` with `is_bought = true` and `bought_at = now` (its
id, owner_email, title, description and created_at are those of `w`), and every
other row is unchanged, at the position it had. -/
theorem C2_BuyWish_marks_bought (db : SqlDB) (now : Time) (id : Int) (w : Wish)
    (hkey : (db.wishes.rows.map Wish.ID).Nodup)
    (hsel : db.wishes.selectByID id = some w) (hnew : w.IsBought = false)
    (hdrv : SqlDB.answers 3 db.driver = true) :
    (service.BuyWish { repo := NewPostgresRepo } now id db).1 = none ∧
    (service.BuyWish { repo := NewPostgresRepo } now id db).2.wishes.selectByID id
      = some { w with IsBought := true, BoughtAt := some now } ∧
    (service.BuyWish { repo := NewPostgresRepo } now id db).2.wishes.rows.length
      = db.wishes.rows.length ∧
    (∀ (i : Nat) (v : Wish), db.wishes.rows[i]? = some v →
      (service.BuyWish { repo := NewPostgresRepo } now id db).2.wishes.rows[i]? =
        some (if v.ID = id then { v with IsBought := true, BoughtAt := some now } else v)) := by
  have hget := PostgresRepo.GetByID_of_answers id hdrv
  simp only [hsel] at hget
  have hup := @PostgresRepo.Update_of_answers _ { db with driver := db.driver.tail }
    { w with IsBought := true, BoughtAt := some now } (SqlDB.answers_succ hdrv).2
  have hwid := Table.selectByID_id hsel
  simp only [if_neg (Table.updateByID_affected hsel _ _ _ _), hwid] at hup
  have hrun : service.BuyWish { repo := NewPostgresRepo } now id db =
      (none, { wishes := (db.wishes.updateByID w.Title w.Description true (some now) id).2,
               driver := db.driver.tail.tail.tail }) := by
    simp only [service.BuyWish, NewPostgresRepo, hget, hnew, Bool.false_eq_true, if_false, hwid]
    exact hup
  rw [hrun]
  refine ⟨rfl, ?_, ?_, ?_⟩
  · simp [Table.selectByID_updateByID, hsel, hwid]
  · simp [Table.updateByID]
  · intro i v hv
    simp only
    rw [Table.updateByID_rows hkey hsel _ _ _ _ i v hv]
    by_cases h : v.ID = id
    · have hvw : v = w :=
        Table.key_unique hkey (List.getElem?_mem hv) (Table.selectByID_mem hsel)
          (h.trans hwid.symm)
      simp [h, hvw]
    · simp [h]

/-- Instance of C2 on the sample database: buying the wish with id 1 at time 30. -/
theorem C2_BuyWish_marks_bought_witness :
    (sampleDB.wishes.rows.map Wish.ID).Nodup ∧
    sampleDB.wishes.selectByID 1 = some bookWish ∧
    bookWish.IsBought = false ∧
    SqlDB.answers 3 sampleDB.driver = true ∧
    (service.BuyWish { repo := NewPostgresRepo } 30 1 sampleDB).1 = none ∧
    (service.BuyWish { repo := NewPostgresRepo } 30 1 sampleDB).2.wishes.selectByID 1
      = some { bookWish with IsBought := true, BoughtAt := some 30 } ∧
    (service.BuyWish { repo := NewPostgresRepo } 30 1 sampleDB).2.wishes.rows[1]?
      = some (if bikeWish.ID = 1 then { bikeWish with IsBought := true, BoughtAt := some 30 }
              else bikeWish) :=
  ⟨by decide, by decide, rfl, rfl,
   (C2_BuyWish_marks_bought sampleDB 30 1 bookWish (by decide) (by decide) rfl rfl).1,
   (C2_BuyWish_marks_bought sampleDB 30 1 bookWish (by decide) (by decide) rfl rfl).2.1,
   (C2_BuyWish_marks_bought sampleDB 30 1 bookWish (by decide) (by decide) rfl rfl).2.2.2
     1 bikeWish rfl⟩

/-- C3: when the row stored under `id` is already bought and the driver call of
the fetch goes through, `BuyWish id` fails with `ErrWishAlreadyBought`, leaves
the table as it was, and calls `GetByID` only (no `Update`). In particular this
is the case in the state left by a successful `BuyWish id`. -/
theorem C3_BuyWish_already_bought (db : SqlDB) (now : Time) (id : Int)
    (hdrv : SqlDB.answers 1 db.driver = true)
    (hbought : (∃ w, db.wishes.selectByID id = some w ∧ w.IsBought = true) ∨
      (∃ (db0 : SqlDB) (now0 : Time),
        service.BuyWish { repo := NewPostgresRepo } now0 id db0 = (none, db))) :
    (service.BuyWish { repo := NewPostgresRepo } now id db).1 = some ErrWishAlreadyBought ∧
    (service.BuyWish { repo := NewPostgresRepo } now id db).2.wishes = db.wishes ∧
    (service.BuyWish { repo := traced NewPostgresRepo } now id (db, [])).2.2
      = [Call.GetByID id] := by
  have key : ∃ w, db.wishes.selectByID id = some w ∧ w.IsBought = true := by
    rcases hbought with h | ⟨db0, now0, h⟩
    · exact h
    · simp only [service.BuyWish, NewPostgresRepo] at h
      cases hget : (PostgresRepo.GetByID id db0).1 with
      | error err =>
        have hp : PostgresRepo.GetByID id db0 = (Except.error err, (PostgresRepo.GetByID id db0).2) := by
          rw [← hget]
        rw [hp] at h
        simp at h
      | ok w0 =>
        have hp : PostgresRepo.GetByID id db0 = (Except.ok w0, (PostgresRepo.GetByID id db0).2) := by
          rw [← hget]
        have hsel0 := PostgresRepo.GetByID_ok hget
        have hw := PostgresRepo.GetByID_wishes id db0
        rw [hp] at h
        simp only at h
        cases hb : w0.IsBought with
        | true => simp [hb] at h
        | false =>
          simp only [hb, Bool.false_eq_true, if_false] at h
          have hnone : (PostgresRepo.Update { w0 with IsBought := true, BoughtAt := some now0 }
              (PostgresRepo.GetByID id db0).2).1 = none := by rw [h]
          have hup := PostgresRepo.Update_none hnone
          rw [h, hw] at hup
          simp only at hup
          refine ⟨{ w0 with IsBought := true, BoughtAt := some now0 }, ?_, rfl⟩
          rw [hup, Table.selectByID_updateByID, hsel0]
          simp
  obtain ⟨w, hsel, hb⟩ := key
  have hget := PostgresRepo.GetByID_of_answers id hdrv
  simp only [hsel] at hget
  refine ⟨?_, ?_, ?_⟩
  · simp [service.BuyWish, NewPostgresRepo, hget, hb]
  · simp [service.BuyWish, NewPostgresRepo, hget, hb]
  · simp [service.BuyWish, NewPostgresRepo, traced, hget, hb]

/-- Instance of C3 on the sample database: buying the wish with id 1 a second time. -/
theorem C3_BuyWish_already_bought_witness :
    SqlDB.answers 1 (service.BuyWish { repo := NewPostgresRepo } 30 1 sampleDB).2.driver = true ∧
    service.BuyWish { repo := NewPostgresRepo } 30 1 sampleDB
      = (none, (service.BuyWish { repo := NewPostgresRepo } 30 1 sampleDB).2) ∧
    (service.BuyWish { repo := NewPostgresRepo } 40 1
      (service.BuyWish { repo := NewPostgresRepo } 30 1 sampleDB).2).1
      = some ErrWishAlreadyBought ∧
    (service.BuyWish { repo := NewPostgresRepo } 40 1
      (service.BuyWish { repo := NewPostgresRepo } 30 1 sampleDB).2).2.wishes
      = (service.BuyWish { repo := NewPostgresRepo } 30 1 sampleDB).2.wishes ∧
    (service.BuyWish { repo := traced NewPostgresRepo } 40 1
      ((service.BuyWish { repo := NewPostgresRepo } 30 1 sampleDB).2, [])).2.2
      = [Call.GetByID 1] :=
  ⟨by decide, by decide,
   C3_BuyWish_already_bought (service.BuyWish { repo := NewPostgresRepo } 30 1 sampleDB).2 40 1
     (by decide) (Or.inr ⟨sampleDB, 30, by decide⟩)⟩

/-- C4: when no stored wish has the id `id` and the driver calls go through,
`GetWish`, `UpdateWish` (for every title and description), `DeleteWish` and
`BuyWish` each fail with `ErrWishNotFound`, and the table is unchanged. -/
theorem C4_missing_id_NotFound (db : SqlDB) (now : Time) (id : Int)
    (title description : String)
    (hid : ∀ w ∈ db.wishes.rows, w.ID ≠ id)
    (hdrv : SqlDB.answers 2 db.driver = true) :
    ((service.GetWish { repo := NewPostgresRepo } id db).1 = (none, some ErrWishNotFound) ∧
      (service.GetWish { repo := NewPostgresRepo } id db).2.wishes = db.wishes) ∧
    ((service.UpdateWish { repo := NewPostgresRepo } id title description db).1
        = (none, some ErrWishNotFound) ∧
      (service.UpdateWish { repo := NewPostgresRepo } id title description db).2.wishes
        = db.wishes) ∧
    ((service.DeleteWish { repo := NewPostgresRepo } id db).1 = some ErrWishNotFound ∧
      (service.DeleteWish { repo := NewPostgresRepo } id db).2.wishes = db.wishes) ∧
    ((service.BuyWish { repo := NewPostgresRepo } now id db).1 = some ErrWishNotFound ∧
      (service.BuyWish { repo := NewPostgresRepo } now id db).2.wishes = db.wishes) := by
  have hsel : db.wishes.selectByID id = none := Table.selectByID_eq_none.mpr hid
  have hget := PostgresRepo.GetByID_of_answers id (SqlDB.answers_pred hdrv)
  simp only [hsel] at hget
  have hdel := PostgresRepo.Delete_of_answers id hdrv
  rw [Table.deleteByID_missing hid] at hdel
  refine ⟨?_, ?_, ?_, ?_⟩
  · simp [service.GetWish, NewPostgresRepo, hget]
  · simp [service.UpdateWish, NewPostgresRepo, hget]
  · simp [service.DeleteWish, NewPostgresRepo, hdel]
  · simp [service.BuyWish, NewPostgresRepo, hget]

/-- Instance of C4 on the sample database: the id 7 is not stored. -/
theorem C4_missing_id_NotFound_witness :
    (∀ w ∈ sampleDB.wishes.rows, w.ID ≠ 7) ∧
    SqlDB.answers 2 sampleDB.driver = true ∧
    ((service.GetWish { repo := NewPostgresRepo } 7 sampleDB).1 = (none, some ErrWishNotFound) ∧
      (service.GetWish { repo := NewPostgresRepo } 7 sampleDB).2.wishes = sampleDB.wishes) ∧
    ((service.UpdateWish { repo := NewPostgresRepo } 7 "Atlas" "" sampleDB).1
        = (none, some ErrWishNotFound) ∧
      (service.UpdateWish { repo := NewPostgresRepo } 7 "Atlas" "" sampleDB).2.wishes
        = sampleDB.wishes) ∧
    ((service.DeleteWish { repo := NewPostgresRepo } 7 sampleDB).1 = some ErrWishNotFound ∧
      (service.DeleteWish { repo := NewPostgresRepo } 7 sampleDB).2.wishes = sampleDB.wishes) ∧
    ((service.BuyWish { repo := NewPostgresRepo } 30 7 sampleDB).1 = some ErrWishNotFound ∧
      (service.BuyWish { repo := NewPostgresRepo } 30 7 sampleDB).2.wishes = sampleDB.wishes) :=
  ⟨by decide, rfl, C4_missing_id_NotFound sampleDB 30 7 "Atlas" "" (by decide) rfl⟩

/-- C5: for every handler (create, get, list, update, delete, buy, stats), every
request that decodes, every state of the database and every outcome of the
service call the handler makes on the service of `NewService` over the Postgres
repository, the handler writes a response whose status is the one of the table
of the specification (`specStatus`) for that outcome: 400 for an error that is
`ErrOwnerEmailRequired`, `ErrTitleRequired` or `ErrWishAlreadyBought`, 404 for
one that is `ErrWishNotFound`, 500 for any other error, and on success 201 for
create, 204 for delete and buy, 200 for get, list, stats and update. The errors
the driver reports are any errors other than the four sentinels of this
package, which are values the driver does not have. -/
theorem C5_status_follows_table (db : SqlDB) (now : Time) (r : Request)
    (hdriver : ∀ e, some e ∈ db.driver → ∀ target ∈ sentinels, errorsIs e target = false) :
    (∀ req, r.createBody = some req →
      (CreateWishHandler (NewService now NewPostgresRepo) r db).1.map Response.code
        = some (specStatus Endpoint.create ((NewService now NewPostgresRepo).CreateWish
            req.OwnerEmail req.Title req.Description db).1.2)) ∧
    (∀ id, r.pathID = some id →
      (GetWishHandler (NewService now NewPostgresRepo) r db).1.map Response.code
        = some (specStatus Endpoint.get ((NewService now NewPostgresRepo).GetWish id db).1.2)) ∧
    (∀ bought, r.ownerEmail ≠ "" →
      ((r.bought = "" ∧ bought = none) ∨
        (r.bought ≠ "" ∧ ∃ b, ParseBool r.bought = some b ∧ bought = some b)) →
      (ListWishHandler (NewService now NewPostgresRepo) r db).1.map Response.code
        = some (specStatus Endpoint.list
            ((NewService now NewPostgresRepo).ListWishes r.ownerEmail bought db).1.2)) ∧
    (∀ id req, r.pathID = some id → r.updateBody = some req →
      (UpdateWishHandler (NewService now NewPostgresRepo) r db).1.map Response.code
        = some (specStatus Endpoint.update ((NewService now NewPostgresRepo).UpdateWish id
            req.Title req.Description db).1.2)) ∧
    (∀ id, r.pathID = some id →
      (DeleteWishHandler (NewService now NewPostgresRepo) r db).1.map Response.code
        = some (specStatus Endpoint.delete ((NewService now NewPostgresRepo).DeleteWish id db).1)) ∧
    (∀ id, r.pathID = some id →
      (BuyWishHandler (NewService now NewPostgresRepo) r db).1.map Response.code
        = some (specStatus Endpoint.buy ((NewService now NewPostgresRepo).BuyWish id db).1)) ∧
    (r.ownerEmail ≠ "" →
      (StatsHandler (NewService now NewPostgresRepo) r db).1.map Response.code
        = some (specStatus Endpoint.stats
            ((NewService now NewPostgresRepo).GetStats r.ownerEmail db).1.2)) := by
  have hforeign : ∀ e, some e ∈ db.driver → ∀ (ep : Endpoint), ∀ target ∈ sentinels,
      errorsIs e target = true → target ∈ ep.tested := by
    intro e he ep target ht his
    rw [hdriver e he target ht] at his
    cases his
  refine ⟨?_, ?_, ?_, ?_, ?_, ?_, ?_⟩
  · intro req hreq
    rw [CreateWishHandler_status _ r db req hreq
      (service.CreateWish_record_or_error db now _ _ _)]
    congr 1
    apply handlerStatus_eq_specStatus
    intro e he target ht his
    rcases service.CreateWish_err he with h | h | h
    · rw [errorsIs_sentinel_self (by simp [h, sentinels]) ht his, h]; simp [Endpoint.tested]
    · rw [errorsIs_sentinel_self (by simp [h, sentinels]) ht his, h]; simp [Endpoint.tested]
    · exact hforeign e h _ target ht his
  · intro id hid
    rw [GetWishHandler_status _ r db id hid (service.GetWish_record_or_error db id)]
    congr 1
    apply handlerStatus_eq_specStatus
    intro e he target ht his
    rcases service.GetWish_err he with h | h
    · rw [errorsIs_sentinel_self (by simp [h, sentinels]) ht his, h]; simp [Endpoint.tested]
    · exact hforeign e h _ target ht his
  · intro bought howner hb
    rw [ListWishHandler_status _ r db bought howner hb]
    congr 1
    apply handlerStatus_eq_specStatus
    intro e he target ht his
    exact hforeign e (PostgresRepo.ListRows_err he) _ target ht his
  · intro id req hid hreq
    rw [UpdateWishHandler_status _ r db id req hid hreq
      (service.UpdateWish_record_or_error db id _ _)]
    congr 1
    apply handlerStatus_eq_specStatus
    intro e he target ht his
    rcases service.UpdateWish_err he with h | h
    · rw [errorsIs_sentinel_self (by simp [h, sentinels]) ht his, h]; simp [Endpoint.tested]
    · exact hforeign e h _ target ht his
  · intro id hid
    rw [DeleteWishHandler_status _ r db id hid]
    congr 1
    apply handlerStatus_eq_specStatus
    intro e he target ht his
    rcases PostgresRepo.Delete_err he with h | h
    · rw [errorsIs_sentinel_self (by simp [h, sentinels]) ht his, h]; simp [Endpoint.tested]
    · exact hforeign e h _ target ht his
  · intro id hid
    rw [BuyWishHandler_status _ r db id hid]
    congr 1
    apply handlerStatus_eq_specStatus
    intro e he target ht his
    rcases service.BuyWish_err he with h | h | h
    · rw [errorsIs_sentinel_self (by simp [h, sentinels]) ht his, h]; simp [Endpoint.tested]
    · rw [errorsIs_sentinel_self (by simp [h, sentinels]) ht his, h]; simp [Endpoint.tested]
    · exact hforeign e h _ target ht his
  · intro howner
    rw [StatsHandler_status _ r db howner]
    congr 1
    apply handlerStatus_eq_specStatus
    intro e he target ht his
    exact hforeign e (PostgresRepo.Stats_err he) _ target ht his

/-- Instance of C5 on the sample database, one per row of the table: a create
that succeeds (201), a buy of a bought wish (400), a get of an id that is not
stored (404), a get whose driver call fails (500), a buy that succeeds (204)
and an update that succeeds (200). -/
theorem C5_status_follows_table_witness :
    (∀ e, some e ∈ sampleDB.driver → ∀ target ∈ sentinels, errorsIs e target = false) ∧
    (∀ e, some e ∈ brokenDB.driver → ∀ target ∈ sentinels, errorsIs e target = false) ∧
    (sampleRequest 2).createBody
      = some { OwnerEmail := "c@x.com", Title := "Lamp", Description := "" } ∧
    (sampleRequest 2).pathID = some 2 ∧
    (sampleRequest 2).updateBody = some { Title := "Atlas", Description := "" } ∧
    (CreateWishHandler (NewService 30 NewPostgresRepo) (sampleRequest 2) sampleDB).1.map
      Response.code = some 201 ∧
    (BuyWishHandler (NewService 30 NewPostgresRepo) (sampleRequest 2) sampleDB).1.map
      Response.code = some 400 ∧
    (GetWishHandler (NewService 30 NewPostgresRepo) (sampleRequest 7) sampleDB).1.map
      Response.code = some 404 ∧
    (GetWishHandler (NewService 30 NewPostgresRepo) (sampleRequest 2) brokenDB).1.map
      Response.code = some 500 ∧
    (BuyWishHandler (NewService 30 NewPostgresRepo) (sampleRequest 1) sampleDB).1.map
      Response.code = some 204 ∧
    (UpdateWishHandler (NewService 30 NewPostgresRepo) (sampleRequest 2) sampleDB).1.map
      Response.code = some 200 := by
  have h1 : ∀ e, some e ∈ sampleDB.driver → ∀ target ∈ sentinels,
      errorsIs e target = false := by
    intro e he
    simp [sampleDB] at he
  have h2 : ∀ e, some e ∈ brokenDB.driver → ∀ target ∈ sentinels,
      errorsIs e target = false := by
    intro e he target ht
    simp only [brokenDB, List.mem_singleton, Option.some.injEq] at he
    subst he
    simp only [sentinels, List.mem_cons, List.mem_singleton, List.not_mem_nil, or_false] at ht
    rcases ht with rfl | rfl | rfl | rfl <;> rfl
  exact ⟨h1, h2, rfl, rfl, rfl,
    ((C5_status_follows_table sampleDB 30 (sampleRequest 2) h1).1 _ rfl).trans (by decide),
    ((C5_status_follows_table sampleDB 30 (sampleRequest 2) h1).2.2.2.2.2.1 2 rfl).trans
      (by decide),
    ((C5_status_follows_table sampleDB 30 (sampleRequest 7) h1).2.1 7 rfl).trans (by decide),
    ((C5_status_follows_table brokenDB 30 (sampleRequest 2) h2).2.1 2 rfl).trans (by decide),
    ((C5_status_follows_table sampleDB 30 (sampleRequest 1) h1).2.2.2.2.2.1 1 rfl).trans
      (by decide),
    ((C5_status_follows_table sampleDB 30 (sampleRequest 2) h1).2.2.2.1 2 _ rfl rfl).trans
      (by decide)⟩

/-- C6: the invariant that `bought_at` is present if and only if `is_bought` is
true is preserved by `CreateWish`, `UpdateWish`, `BuyWish` and `DeleteWish`,
with any arguments and whatever the driver reports (so whether the call
succeeds or fails): if it holds for every row before the call, it holds for
every row afterwards and for the record the call returns. -/
theorem C6_bought_at_iff_is_bought_preserved (db : SqlDB) (now : Time) (id : Int)
    (ownerEmail title description : String) (hinv : db.wishes.consistent) :
    ((service.CreateWish { repo := NewPostgresRepo } now ownerEmail title description
        db).2.wishes.consistent ∧
      ∀ w, (service.CreateWish { repo := NewPostgresRepo } now ownerEmail title description
        db).1.1 = some w → w.consistent) ∧
    ((service.UpdateWish { repo := NewPostgresRepo } id title description
        db).2.wishes.consistent ∧
      ∀ w, (service.UpdateWish { repo := NewPostgresRepo } id title description
        db).1.1 = some w → w.consistent) ∧
    (service.BuyWish { repo := NewPostgresRepo } now id db).2.wishes.consistent ∧
    (service.DeleteWish { repo := NewPostgresRepo } id db).2.wishes.consistent := by
  refine ⟨?_, ?_, ?_, ?_⟩
  · exact service.CreateWish_forall db now ownerEmail title description hinv
      (fun _ _ _ => by simp [Wish.consistent])
  · exact service.UpdateWish_forall db id title description hinv
      (fun w w0 _ h0 => by simpa [Wish.consistent] using h0)
  · exact service.BuyWish_forall db now id hinv
      (fun w w0 _ _ => by simp [Wish.consistent])
  · exact service.DeleteWish_forall db id hinv

/-- Instance of C6 on the sample database. -/
theorem C6_bought_at_iff_is_bought_preserved_witness :
    sampleDB.wishes.consistent ∧
    (service.BuyWish { repo := NewPostgresRepo } 30 1 sampleDB).2.wishes.consistent ∧
    (∀ w, (service.UpdateWish { repo := NewPostgresRepo } 2 "Atlas" "" sampleDB).1.1 = some w →
      w.consistent) :=
  ⟨by decide,
   (C6_bought_at_iff_is_bought_preserved sampleDB 30 1 "a@x.com" "Atlas" "" (by decide)).2.2.1,
   (C6_bought_at_iff_is_bought_preserved sampleDB 30 2 "a@x.com" "Atlas" "" (by decide)).2.1.2⟩

/-- C7: `UpdateWish` does not test the title. On a table whose rows all have a
non-empty owner email and a non-empty title, `UpdateWish 1 "" ""` succeeds and
stores an empty title on the row with id 1: the table no longer has a non-empty
title on every row. -/
theorem C7_UpdateWish_persists_empty_title :
    sampleDB.wishes.named ∧
    (service.UpdateWish { repo := NewPostgresRepo } 1 "" "" sampleDB).1
      = (some { bookWish with Title := "", Description := "" }, none) ∧
    (service.UpdateWish { repo := NewPostgresRepo } 1 "" "" sampleDB).2.wishes.rows
      = [{ bookWish with Title := "", Description := "" }, bikeWish] ∧
    ¬ (service.UpdateWish { repo := NewPostgresRepo } 1 "" "" sampleDB).2.wishes.named := by
  decide

/-- C8: when `id` is the key of the table, `w` is the row stored under `id` and
the driver calls go through, `UpdateWish id title description` succeeds; the
returned record and the row stored under `id` afterwards are `w` with the given
title and description (id, owner_email, is_bought, bought_at and created_at are
those of `w`), and every other row is unchanged, at the position it had. -/
theorem C8_UpdateWish_frame (db : SqlDB) (id : Int) (title description : String) (w : Wish)
    (hkey : (db.wishes.rows.map Wish.ID).Nodup)
    (hsel : db.wishes.selectByID id = some w)
    (hdrv : SqlDB.answers 3 db.driver = true) :
    (service.UpdateWish { repo := NewPostgresRepo } id title description db).1
      = (some { w with Title := title, Description := description }, none) ∧
    (service.UpdateWish { repo := NewPostgresRepo } id title description db).2.wishes.selectByID id
      = some { w with Title := title, Description := description } ∧
    (service.UpdateWish { repo := NewPostgresRepo } id title description db).2.wishes.rows.length
      = db.wishes.rows.length ∧
    (∀ (i : Nat) (v : Wish), db.wishes.rows[i]? = some v →
      (service.UpdateWish { repo := NewPostgresRepo } id title description db).2.wishes.rows[i]? =
        some (if v.ID = id then { v with Title := title, Description := description } else v)) := by
  have hget := PostgresRepo.GetByID_of_answers id hdrv
  simp only [hsel] at hget
  have hup := @PostgresRepo.Update_of_answers _ { db with driver := db.driver.tail }
    { w with Title := title, Description := description } (SqlDB.answers_succ hdrv).2
  have hwid := Table.selectByID_id hsel
  simp only [if_neg (Table.updateByID_affected hsel _ _ _ _), hwid] at hup
  have hrun : service.UpdateWish { repo := NewPostgresRepo } id title description db =
      ((some { w with Title := title, Description := description }, none),
       { wishes := (db.wishes.updateByID title description w.IsBought w.BoughtAt id).2,
         driver := db.driver.tail.tail.tail }) := by
    simp only [service.UpdateWish, NewPostgresRepo, hget, hwid, hup]
  rw [hrun]
  refine ⟨rfl, ?_, ?_, ?_⟩
  · simp [Table.selectByID_updateByID, hsel, hwid]
  · simp [Table.updateByID]
  · intro i v hv
    simp only
    rw [Table.updateByID_rows hkey hsel _ _ _ _ i v hv]
    by_cases h : v.ID = id
    · have hvw : v = w :=
        Table.key_unique hkey (List.getElem?_mem hv) (Table.selectByID_mem hsel)
          (h.trans hwid.symm)
      simp [h, hvw]
    · simp [h]

/-- Instance of C8 on the sample database: updating the wish with id 2. -/
theorem C8_UpdateWish_frame_witness :
    (sampleDB.wishes.rows.map Wish.ID).Nodup ∧
    sampleDB.wishes.selectByID 2 = some bikeWish ∧
    SqlDB.answers 3 sampleDB.driver = true ∧
    (service.UpdateWish { repo := NewPostgresRepo } 2 "Atlas" "maps" sampleDB).1
      = (some { bikeWish with Title := "Atlas", Description := "maps" }, none) ∧
    (service.UpdateWish { repo := NewPostgresRepo } 2 "Atlas" "maps" sampleDB).2.wishes.rows[0]?
      = some (if bookWish.ID = 2 then { bookWish with Title := "Atlas", Description := "maps" }
              else bookWish) :=
  ⟨by decide, by decide, rfl,
   (C8_UpdateWish_frame sampleDB 2 "Atlas" "maps" bikeWish (by decide) (by decide) rfl).1,
   (C8_UpdateWish_frame sampleDB 2 "Atlas" "maps" bikeWish (by decide) (by decide) rfl).2.2.2
     0 bookWish rfl⟩

/-- C9: for a non-empty owner email and a non-empty title, when the driver call
of the insert goes through `CreateWish` returns a record and no error, and
whenever it returns a record with no error that record has `is_bought = false`,
no `bought_at`, and the owner email, title and description given (and `now` as
its creation time). -/
theorem C9_CreateWish_record (db : SqlDB) (now : Time)
    (ownerEmail title description : String) (h1 : ownerEmail ≠ "") (h2 : title ≠ "") :
    (SqlDB.answers 1 db.driver = true →
      ∃ w, (service.CreateWish { repo := NewPostgresRepo } now ownerEmail title description
        db).1 = (some w, none)) ∧
    (∀ w, (service.CreateWish { repo := NewPostgresRepo } now ownerEmail title description
        db).1 = (some w, none) →
      w.IsBought = false ∧ w.BoughtAt = none ∧ w.OwnerEmail = ownerEmail ∧
      w.Title = title ∧ w.Description = description ∧ w.CreatedAt = now) := by
  refine ⟨?_, ?_⟩
  · intro hdrv
    refine ⟨{ ID := db.wishes.nextID, OwnerEmail := ownerEmail, Title := title,
              Description := description, IsBought := false, BoughtAt := none,
              CreatedAt := now }, ?_⟩
    simp [service.CreateWish, h1, h2, NewPostgresRepo, PostgresRepo.Create,
      SqlDB.call_of_answers hdrv, Table.insertReturningID]
  · intro w hw
    obtain ⟨id, hid, _, _⟩ := service.CreateWish_record db now ownerEmail title description w
      (by rw [hw])
    rw [hid]
    exact ⟨rfl, rfl, rfl, rfl, rfl, rfl⟩

/-- Instance of C9 on the sample database: creating a wish for `c@x.com`. -/
theorem C9_CreateWish_record_witness :
    ("c@x.com" : String) ≠ "" ∧ ("Lamp" : String) ≠ "" ∧
    SqlDB.answers 1 sampleDB.driver = true ∧
    (∃ w, (service.CreateWish { repo := NewPostgresRepo } 30 "c@x.com" "Lamp" "" sampleDB).1
      = (some w, none)) ∧
    (∀ w, (service.CreateWish { repo := NewPostgresRepo } 30 "c@x.com" "Lamp" "" sampleDB).1
        = (some w, none) →
      w.IsBought = false ∧ w.BoughtAt = none ∧ w.OwnerEmail = "c@x.com" ∧
      w.Title = "Lamp" ∧ w.Description = "" ∧ w.CreatedAt = 30) :=
  ⟨by decide, by decide, rfl,
   (C9_CreateWish_record sampleDB 30 "c@x.com" "Lamp" "" (by decide) (by decide)).1 rfl,
   (C9_CreateWish_record sampleDB 30 "c@x.com" "Lamp" "" (by decide) (by decide)).2⟩

/-- C10: a successful `GetStats ownerEmail` returns `total` equal to the number
of rows whose owner email is `ownerEmail`, `bought` equal to the number of those
with `is_bought = true`, and `pending = total - bought`, so that
`total = bought + pending` and `0 ≤ bought ≤ total`; it succeeds when the driver
call goes through, and for an owner without rows it then returns all zeros and
no error. The table is not changed. -/
theorem C10_GetStats_counts (db : SqlDB) (ownerEmail : String) :
    (∀ st, (service.GetStats { repo := NewPostgresRepo } ownerEmail db).1 = (st, none) →
      st.Total = (db.wishes.rows.countP (fun w => decide (w.OwnerEmail = ownerEmail)) : Nat) ∧
      st.Bought = (db.wishes.rows.countP
        (fun w => decide (w.OwnerEmail = ownerEmail) && w.IsBought) : Nat) ∧
      st.Pending = st.Total - st.Bought ∧
      st.Total = st.Bought + st.Pending ∧
      0 ≤ st.Bought ∧ st.Bought ≤ st.Total) ∧
    (SqlDB.answers 1 db.driver = true →
      (service.GetStats { repo := NewPostgresRepo } ownerEmail db).1.2 = none) ∧
    (SqlDB.answers 1 db.driver = true → (∀ w ∈ db.wishes.rows, w.OwnerEmail ≠ ownerEmail) →
      (service.GetStats { repo := NewPostgresRepo } ownerEmail db).1
        = ({ Total := 0, Bought := 0, Pending := 0 }, none)) ∧
    (service.GetStats { repo := NewPostgresRepo } ownerEmail db).2.wishes = db.wishes := by
  simp only [service.GetStats, NewPostgresRepo, PostgresRepo.Stats]
  rw [SqlDB.call_eq]
  refine ⟨?_, ?_, ?_, ?_⟩
  · intro st hst
    generalize db.driver.headD none = f at hst
    cases f with
    | some err => simp at hst
    | none =>
      simp only [Table.countByOwner, Prod.mk.injEq, and_true] at hst
      subst hst
      simp only [List.countP_eq_length_filter]
      have hle : (db.wishes.rows.filter
            (fun w => decide (w.OwnerEmail = ownerEmail) && w.IsBought)).length ≤
          (db.wishes.rows.filter (fun w => decide (w.OwnerEmail = ownerEmail))).length := by
        rw [← List.countP_eq_length_filter, ← List.countP_eq_length_filter]
        apply List.countP_mono_left
        intro x _ hx
        simp only [Bool.and_eq_true] at hx
        exact hx.1
      refine ⟨trivial, trivial, trivial, ?_, ?_, ?_⟩
      · omega
      · omega
      · omega
  · intro hdrv
    rw [(SqlDB.answers_succ hdrv).1]
  · intro hdrv hnone
    rw [(SqlDB.answers_succ hdrv).1]
    have h1 : db.wishes.rows.filter (fun w => decide (w.OwnerEmail = ownerEmail)) = [] := by
      rw [List.filter_eq_nil_iff]
      intro a ha
      simpa using hnone a ha
    have h2 : db.wishes.rows.filter
        (fun w => decide (w.OwnerEmail = ownerEmail) && w.IsBought) = [] := by
      rw [List.filter_eq_nil_iff]
      intro a ha
      simp [hnone a ha]
    simp [Table.countByOwner, h1, h2]
  · cases db.driver.headD none <;> rfl

/-- Instance of C10 on the sample database: the owners `b@x.com` (one bought wish) and `c@x.com` (no wish). -/
theorem C10_GetStats_counts_witness :
    SqlDB.answers 1 sampleDB.driver = true ∧
    (∀ w ∈ sampleDB.wishes.rows, w.OwnerEmail ≠ "c@x.com") ∧
    (service.GetStats { repo := NewPostgresRepo } "b@x.com" sampleDB).1
      = ({ Total := 1, Bought := 1, Pending := 0 }, none) ∧
    (1 : Int) = (sampleDB.wishes.rows.countP (fun w => decide (w.OwnerEmail = "b@x.com")) : Nat) ∧
    (service.GetStats { repo := NewPostgresRepo } "c@x.com" sampleDB).1
      = ({ Total := 0, Bought := 0, Pending := 0 }, none) :=
  ⟨rfl, by decide, by decide,
   ((C10_GetStats_counts sampleDB "b@x.com").1 { Total := 1, Bought := 1, Pending := 0 }
     (by decide)).1,
   (C10_GetStats_counts sampleDB "c@x.com").2.2.1 rfl (by decide)⟩

end wish
